import Mathlib

/-!
Shallow embedding of the verifier-side core of the proof-of-solvency
repository (Poseidon hashing, anonymity-set hashing, public-output
aggregation, Groth16 verification, receipt verification), together with
theorems settling the specification claims.

Conventions of the embedding:
* Python integers become `Nat` (or `Int` where a sign matters), with
  modular reduction written explicitly.
* A Python function that can raise (assertions, `TypeError`, index or
  parse errors) becomes an `Option`-valued Lean function; `none` is the
  raising outcome.
* Loops become folds or fuel-indexed structural recursion so that every
  definition evaluates inside the kernel.
-/

namespace poseidon_hash

/-- The BN254 scalar-field modulus, the local constant `p` of
`utils/poseidon/poseidon_hash.py`. -/
def p : Nat := 21888242871839275222246405745257275088548364400416034343698204186575808495617

/-- Modelled from the spec: `utils/poseidon/poseidon_consts.py` is not among
the sources (only `poseidon_hash.py` imports it).  Section 4.1 of the spec
fixes `Rf = 4` full rounds on each side and a partial-round count `RP(t)`
drawn from the standard Poseidon-128 table for BN254, which is the table
below (indexed by `t = 2..17`). -/
def get_RP (t : Nat) : Nat :=
  [56, 57, 56, 60, 60, 63, 64, 63, 60, 66, 60, 65, 70, 60, 64, 68].getD (t - 2) 0

/-- Modelled from the spec: the concrete Grain-LFSR round constants of
`poseidon_consts.py` are not among the sources.  The spec requires only
that the table for width `t` hold exactly `t * (2 * Rf + RP t)` field
elements; the stand-in below has exactly that length, and no theorem in
this file depends on the values of the constants. -/
def get_round_constants (t : Nat) : List Nat :=
  List.range (t * (2 * 4 + get_RP t))

/-- Modelled from the spec: the concrete MDS matrices of
`poseidon_consts.py` are not among the sources.  The spec requires a
`t x t` matrix over the scalar field; the stand-in below has that shape,
and no theorem in this file depends on its entries. -/
def get_mds (t : Nat) : List (List Nat) :=
  (List.range t).map (fun i => (List.range t).map (fun j => (i + j + 1) % p))

/-- The x^5 S-box of `poseidon_hash.py`. -/
def s_box (x : Nat) : Nat :=
  let a := (x * x) % p
  let b := (a * a) % p
  (x * b) % p

/-- Dot product modulo `p`.  The source asserts that the two vectors have
equal length; `perm` only ever calls it through `matrix_multiply` on
matching shapes, and the zip below silently truncates instead. -/
def dotprod (a b : List Nat) : Nat :=
  ((a.zip b).foldl (fun res q => res + (q.1 * q.2) % p) 0) % p

/-- Matrix-vector multiplication of `poseidon_hash.py` (the source asserts
squareness of `M`, which holds for every `get_mds t`). -/
def matrix_multiply (M : List (List Nat)) (x : List Nat) : List Nat :=
  M.map (fun row => dotprod row x)

/-- Adding the next `t` round constants to the state. -/
def add_round_constants (state rcs : List Nat) : List Nat :=
  (state.zip rcs).map (fun q => (q.1 + q.2) % p)

/-- Applying the S-box to index 0 only (a partial round). -/
def s_box_head (state : List Nat) : List Nat :=
  match state with
  | [] => []
  | x :: xs => s_box x :: xs

/-- The Poseidon permutation of `poseidon_hash.py`.  The source's three
round loops (Rf full, RP partial, Rf full) with a running `rc_counter`
are written as one fold over the round index; round `r` consumes the
round-constant segment starting at `r * t`, exactly as the running
counter does, and the source's final `rc_counter == len(RC)` assertion
holds by construction of `get_round_constants`.  The source also asserts
`len(input_words) == t`; the only caller, `poseidon_hash`, establishes
that before calling. -/
def perm (input_words : List Nat) (t : Nat) : List Nat :=
  let RP := get_RP t
  let Rf := 4
  let M := get_mds t
  let RC := get_round_constants t
  (List.range (2 * Rf + RP)).foldl
    (fun state r =>
      let state := add_round_constants state ((RC.drop (r * t)).take t)
      let state :=
        if r < Rf || Rf + RP <= r then state.map s_box else s_box_head state
      matrix_multiply M state)
    input_words

/-- The `poseidon_hash` of `poseidon_hash.py`: requires
`len(input) == arity` (the raising branch is `none`), prepends the zero
capacity element, permutes at width `arity + 1` and returns state 0. -/
def poseidon_hash (input : List Nat) (arity : Nat) : Option Nat :=
  if input.length = arity then
    some ((perm (0 :: input) (arity + 1)).headD 0)
  else
    none

/-- The `while` loop of `linear_hash_many`, with explicit fuel.  Each
Python iteration either empties `remaining` or removes `arity - 1` of its
elements, so `remaining.length + 1` fuel always suffices when
`arity >= 2`; exhausted fuel (`none`) models the source looping forever,
which happens only for `arity <= 1`. -/
def linear_hash_while (arity : Nat) : Nat → Nat → List Nat → Option Nat
  | 0, current_hash, remaining =>
      if remaining.length = 0 then some current_hash else none
  | fuel + 1, current_hash, remaining =>
      if remaining.length = 0 then some current_hash
      else if remaining.length ≤ arity - 1 then
        match poseidon_hash
            ([current_hash] ++ remaining ++
              List.replicate (arity - remaining.length - 1) 0) arity with
        | none => none
        | some h => linear_hash_while arity fuel h []
      else
        match poseidon_hash ([current_hash] ++ remaining.take (arity - 1)) arity with
        | none => none
        | some h => linear_hash_while arity fuel h (remaining.drop (arity - 1))

/-- The `linear_hash_many` of `poseidon_hash.py` (the source's default
arity 16 is passed explicitly by every caller in this file). -/
def linear_hash_many (inputs : List Nat) (arity : Nat) : Option Nat :=
  if inputs.length ≤ arity then
    match poseidon_hash (inputs ++ List.replicate (arity - inputs.length) 0) arity with
    | none => none
    | some h => linear_hash_while arity 1 h []
  else
    match poseidon_hash (inputs.take arity) arity with
    | none => none
    | some h =>
        linear_hash_while arity ((inputs.drop arity).length + 1) h (inputs.drop arity)

end poseidon_hash

/-- Sequential `Option`-valued map: applies `f` left to right and fails
at the first failure, the way a Python loop raises at the first bad
element.  Defined by structural recursion so that it both unfolds in
proofs and evaluates in the kernel. -/
def optMapM (f : A → Option B) : List A → Option (List B)
  | [] => some []
  | x :: xs =>
      match f x, optMapM f xs with
      | some y, some ys => some (y :: ys)
      | _, _ => none

namespace pybuiltins

/-- Python's `hex` builtin: `0x` followed by the minimal lowercase
hexadecimal digits (`0x0` for zero), as produced by `Nat.toDigits 16`. -/
def hex (n : Nat) : String :=
  "0x" ++ String.mk (Nat.toDigits 16 n)

/-- Python's `bin(n)[2:]`: the minimal binary digit string (`0` for 0). -/
def bin_digits (n : Nat) : String :=
  String.mk (Nat.toDigits 2 n)

/-- Value of one hexadecimal digit character, lowercase or uppercase
(`none` for a non-digit, modelling the `ValueError` of `int(s, 16)`). -/
def hex_char_val (c : Char) : Option Nat :=
  if '0' ≤ c ∧ c ≤ '9' then some (c.toNat - '0'.toNat)
  else if 'a' ≤ c ∧ c ≤ 'f' then some (c.toNat - 'a'.toNat + 10)
  else if 'A' ≤ c ∧ c ≤ 'F' then some (c.toNat - 'A'.toNat + 10)
  else none

/-- Python's `int(s, 16)` restricted to an optional `0x`/`0X` prefix and
hexadecimal digits (sign and underscore forms are never produced by this
repository's data). -/
def int_base16 (s : String) : Option Nat :=
  let cs :=
    match s.data with
    | '0' :: 'x' :: rest => rest
    | '0' :: 'X' :: rest => rest
    | cs => cs
  if cs.isEmpty then none
  else
    cs.foldl
      (fun acc c =>
        match acc, hex_char_val c with
        | some a, some v => some (a * 16 + v)
        | _, _ => none)
      (some 0)

/-- Python's `int(s)` restricted to decimal digit strings. -/
def int_base10 (s : String) : Option Nat :=
  if s.data.isEmpty then none
  else
    s.data.foldl
      (fun acc c =>
        match acc with
        | some a => if c.isDigit then some (a * 10 + (c.toNat - '0'.toNat)) else none
        | none => none)
      (some 0)

/-- Python's `int(s, 2)` on digit strings of `0` and `1`. -/
def int_base2 (s : String) : Option Nat :=
  if s.data.isEmpty then none
  else
    s.data.foldl
      (fun acc c =>
        match acc with
        | some a =>
            if c = '0' then some (a * 2)
            else if c = '1' then some (a * 2 + 1)
            else none
        | none => none)
      (some 0)

/-- Python's `str.lower()` (ASCII case mapping, as in the address and
token strings of this repository), written over the character list so
that it evaluates inside the kernel. -/
def str_lower (s : String) : String :=
  String.mk (s.data.map Char.toLower)

/-- Python's `str.upper()` (ASCII case mapping), written over the
character list so that it evaluates inside the kernel. -/
def str_upper (s : String) : String :=
  String.mk (s.data.map Char.toUpper)

/-- Python's `int.from_bytes(bs, byteorder='big')`. -/
def from_bytes_big (bs : List Nat) : Nat :=
  bs.foldl (fun acc b => acc * 256 + b) 0

end pybuiltins

namespace common

/-- `BALANCE_DIMENSION` of `utils/common.py`. -/
def BALANCE_DIMENSION : Nat := 18

def BITCOIN_TOKEN : String := "BTC"

def ETHER_TOKEN : String := "ETH"

def SUPPORTED_TOKENS : List String := [BITCOIN_TOKEN, ETHER_TOKEN]

/-- `get_balance_orders` of `utils/common.py`: the two supported tokens
followed by the reserved `Unsupported-Index-i` slots. -/
def get_balance_orders (balance_dimension : Nat) : List String :=
  SUPPORTED_TOKENS ++
    (List.range (balance_dimension - SUPPORTED_TOKENS.length)).map
      (fun i => "Unsupported-Index-" ++ toString i)

/-- `ACCT_PRECISION_DICT` of `utils/common.py` as a lookup. -/
def ACCT_PRECISION_DICT (token : String) : Option Nat :=
  if token = BITCOIN_TOKEN then some 8
  else if token = ETHER_TOKEN then some 18
  else none

/-- `PROOF_PRECISION_DICT` of `utils/common.py` as a lookup. -/
def PROOF_PRECISION_DICT (token : String) : Option Nat :=
  if token = BITCOIN_TOKEN then some 8
  else if token = ETHER_TOKEN then some 7
  else none

/-- `SNAPSHOT_PRECISION_DICT` of `utils/common.py` as a lookup. -/
def SNAPSHOT_PRECISION_DICT (token : String) : Option Nat :=
  if token = BITCOIN_TOKEN then some 8
  else if token = ETHER_TOKEN then some 18
  else none

/-- `strip_leading_0x` of `utils/common.py`. -/
def strip_leading_0x (s : String) : String :=
  match s.data with
  | '0' :: 'x' :: rest => String.mk rest
  | _ => s

/-- `split_into_chunks` of `utils/common.py`, in the `fill_empty=None`
form used by the receipt verifier.  The Python `while` loop advances by
`chunk_size` per iteration; the fuel argument of the helper below equals
the list length, which suffices for every positive chunk size, and a
zero chunk size (where the Python loop never terminates) exhausts the
fuel and yields the partial chunk list. -/
def split_into_chunks_go (chunk_size : Nat) : Nat → List Nat → List (List Nat)
  | _, [] => []
  | 0, _ => []
  | fuel + 1, l => l.take chunk_size :: split_into_chunks_go chunk_size fuel (l.drop chunk_size)

def split_into_chunks (all_elts : List Nat) (chunk_size : Nat) : List (List Nat) :=
  split_into_chunks_go chunk_size all_elts.length all_elts

/-- `int_to_bin` of `utils/common.py` in the `expected_length` form: the
binary digit string left-padded with zeros to the expected length; the
source's `padded_zeros >= 0` assertion is the `none` branch. -/
def int_to_bin (x_int : Nat) (expected_length : Nat) : Option String :=
  let x_bin := pybuiltins.bin_digits x_int
  if x_bin.length ≤ expected_length then
    some (String.mk (List.replicate (expected_length - x_bin.length) '0') ++ x_bin)
  else
    none

/-- `int_to_regs` of `utils/common.py`: four 64-bit limbs, least
significant first, of an integer below `2 ^ 256`; the source's final
`temp == 0` assertion is the `none` branch.  (The source returns the
limbs as decimal strings and its only caller maps `int` over them; the
string round-trip is the identity and is omitted.) -/
def int_to_regs (x : Nat) : Option (List Nat) :=
  let step := fun (st : Nat × List Nat) (_ : Nat) =>
    (st.1 / 2 ^ 64, st.2 ++ [st.1 % 2 ^ 64])
  let fin := (List.range 4).foldl step (x, [])
  if fin.1 = 0 then some fin.2 else none

end common

namespace scaling

/-- `scale_units` of `utils/scaling.py`.  A negative value fails the
leading assertion (`none`); otherwise a non-negative precision difference
multiplies, and a negative one floor-divides and optionally rounds up.
Python's `//` and `%` are floor division and floor modulus, `Int.fdiv`
and `Int.fmod`. -/
def scale_units (value : Int) (input_decimals output_decimals : Nat)
    (round_up : Bool) : Option Int :=
  if value < 0 then none
  else if input_decimals ≤ output_decimals then
    some (value * 10 ^ (output_decimals - input_decimals))
  else if round_up &&
      decide (value.fdiv (10 ^ (input_decimals - output_decimals)) *
          10 ^ (input_decimals - output_decimals) ≠ value) then
    some (value.fdiv (10 ^ (input_decimals - output_decimals)) + 1)
  else
    some (value.fdiv (10 ^ (input_decimals - output_decimals)))

/-- `snapshot_precision_to_proof_precision` of `utils/scaling.py`. -/
def snapshot_precision_to_proof_precision (which_token : String) (value : Int) :
    Option Int :=
  match common.SNAPSHOT_PRECISION_DICT which_token,
      common.PROOF_PRECISION_DICT which_token with
  | some s, some pr => scale_units value s pr true
  | _, _ => some value

/-- `account_precision_to_proof_precision` of `utils/scaling.py`. -/
def account_precision_to_proof_precision (which_token : String) (value : Int) :
    Option Int :=
  match common.ACCT_PRECISION_DICT which_token,
      common.PROOF_PRECISION_DICT which_token with
  | some a, some pr => scale_units value a pr true
  | _, _ => some value

end scaling

namespace btc_utils

def BECH32_CHARSET : String := "qpzry9x8gf2tvdw0s3jn54khce6mua7l"

inductive BitcoinAddressType where
  | P2PKH
  | P2SH
  | P2WPKH
  | P2WSH
deriving DecidableEq, Repr

/-- `get_btc_address_type` of `utils/btc_utils.py`; an empty address
(where `addr[0]` raises) and an unknown shape (`ValueError`) are `none`. -/
def get_btc_address_type (addr : String) : Option BitcoinAddressType :=
  match addr.data with
  | [] => none
  | c :: _ =>
      if c = '1' then some BitcoinAddressType.P2PKH
      else if c = '3' then some BitcoinAddressType.P2SH
      else if (addr.data.take 3 = ['b', 'c', '1']) ∧ addr.length = 42 then
        some BitcoinAddressType.P2WPKH
      else if (addr.data.take 3 = ['b', 'c', '1']) ∧ addr.length = 62 then
        some BitcoinAddressType.P2WSH
      else none

/-- The Bitcoin Base58 alphabet used by the `base58` library. -/
def B58_ALPHABET : String :=
  "123456789ABCDEFGHJKLMNPQRSTUVWXYZabcdefghijkmnopqrstuvwxyz"

/-- `btc_b58_to_int` of `utils/btc_utils.py`, i.e. the library call
`base58.b58decode_int`: positional base-58 value of the string; an
alphabet miss raises (`none`). -/
def btc_b58_to_int (x : String) : Option Nat :=
  x.data.foldl
    (fun acc c =>
      match acc, (B58_ALPHABET.data.indexOf? c) with
      | some a, some i => some (a * 58 + i)
      | _, _ => none)
    (some 0)

/-- The byte list obtained in `b58addrtoint` from
`bytearray.fromhex(temp_hex)` after the odd-length hex string is padded
with one leading zero: big-endian bytes of `temp`, one byte per two hex
digits of `hex(temp)`. -/
def hex_even_bytes (temp : Nat) : List Nat :=
  let temp_hex := (Nat.toDigits 16 temp)
  let padded := if temp_hex.length % 2 = 1 then '0' :: temp_hex else temp_hex
  (common.split_into_chunks_go 2 padded.length (padded.map (fun c =>
      (pybuiltins.hex_char_val c).getD 0))).map
    (fun q => q.getD 0 0 * 16 + q.getD 1 0)

/-- The byte string of `b58addrtoint` after `temp_bytes[:-4]` chops the
4 checksum bytes. -/
def checksum_chopped (temp : Nat) : List Nat :=
  (hex_even_bytes temp).take ((hex_even_bytes temp).length - 4)

/-- The final `int.from_bytes` read of `b58addrtoint`: the whole chopped
byte string, or its last 20 bytes when it is longer than 20 bytes. -/
def b58_result (temp : Nat) : Nat :=
  if (checksum_chopped temp).length > 20 then
    pybuiltins.from_bytes_big
      ((checksum_chopped temp).drop ((checksum_chopped temp).length - 20))
  else
    pybuiltins.from_bytes_big (checksum_chopped temp)

/-- `b58addrtoint` of `utils/btc_utils.py`: decode, drop the 4 checksum
bytes, keep at most the last 20 bytes (more than 21 remaining bytes fails
the source's assertion, `none`), read big-endian, and check the
`result < 2 ** 160` assertion. -/
def b58addrtoint (addr_str : String) : Option Nat :=
  match btc_b58_to_int addr_str with
  | none => none
  | some temp =>
      if (checksum_chopped temp).length > 20 ∧
          ¬ (checksum_chopped temp).length = 21 then none
      else if b58_result temp < 2 ^ 160 then some (b58_result temp) else none

/-- `bech32CharToInt` of `utils/btc_utils.py`. -/
def bech32CharToInt (c : Char) : Option Nat :=
  match BECH32_CHARSET.data.indexOf? c with
  | some i => some i
  | none => none

/-- The inner `while bits >= tobits` loop of `convertbits`, with fuel
(`bits` strictly decreases by `tobits` per iteration, so `bits` fuel
suffices whenever `tobits >= 1`). -/
def convertbits_drain (tobits maxv : Nat) : Nat → Nat → Nat → List Nat → Nat × List Nat
  | 0, _, bits, ret => (bits, ret)
  | fuel + 1, acc, bits, ret =>
      if tobits ≤ bits then
        convertbits_drain tobits maxv fuel acc (bits - tobits)
          (ret ++ [(acc >>> (bits - tobits)) &&& maxv])
      else
        (bits, ret)

/-- `convertbits` of `utils/btc_utils.py` with `pad=False`, the only form
used: general power-of-2 base conversion; a value with more than
`frombits` bits, or leftover bits that are too many or non-zero, yields
`None`. -/
def convertbits (data : List Nat) (frombits tobits : Nat) : Option (List Nat) :=
  let maxv := (1 <<< tobits) - 1
  let max_acc := (1 <<< (frombits + tobits - 1)) - 1
  let folded : Option (Nat × Nat × List Nat) :=
    data.foldl
      (fun st value =>
        match st with
        | none => none
        | some (acc, bits, ret) =>
            if value >>> frombits ≠ 0 then none
            else
              let acc := ((acc <<< frombits) ||| value) &&& max_acc
              let bits := bits + frombits
              let drained := convertbits_drain tobits maxv bits acc bits ret
              some (acc, drained.1, drained.2))
      (some (0, 0, []))
  match folded with
  | none => none
  | some (acc, bits, ret) =>
      if frombits ≤ bits ∨ ((acc <<< (tobits - bits)) &&& maxv) ≠ 0 then none
      else some ret

/-- Models the source's case assertion
`addr_str.lower() == addr_str or addr_str.upper == addr_str`: the second
disjunct compares the *unbound method object* `addr_str.upper` (it is
never called) against a string, so it is always `False` in Python. -/
def upper_method_eq_check (_ : String) : Bool := false

/-- `bech32addrtoint` of `utils/btc_utils.py`: length must be 42 or 62;
the case assertion (see `upper_method_eq_check`); lowercase; `bc1`
prefix; strip the 4-character prefix (including witness version) and the
6-character checksum; 5-bit charset values to bytes via `convertbits`
(a `None` there makes the subsequent `len(None)` raise, `none` here);
big-endian integer; hex round-trip; the `< 2 ** 256` and `> 0`
assertions. -/
def bech32addrtoint (addr_str : String) : Option Nat :=
  if ¬ (addr_str.length = 42 ∨ addr_str.length = 62) then none
  else if ¬ (pybuiltins.str_lower addr_str = addr_str ∨ upper_method_eq_check addr_str = true) then none
  else
    let addr_str := pybuiltins.str_lower addr_str
    if ¬ (addr_str.data.take 3 = ['b', 'c', '1']) then none
    else
      let important := (addr_str.data.drop 4).take (addr_str.data.length - 4 - 6)
      match optMapM bech32CharToInt important with
      | none => none
      | some experiment =>
          match convertbits experiment 5 8 with
          | none => none
          | some decoded =>
              let temp :=
                (List.range decoded.length).foldl
                  (fun temp i => temp + (decoded.getD (decoded.length - 1 - i) 0) * 256 ^ i)
                  0
              let temp_hexstr := common.strip_leading_0x (pybuiltins.hex temp)
              match pybuiltins.int_base16 temp_hexstr with
              | none => none
              | some result =>
                  if result < 2 ^ 256 then
                    if result > 0 then some result else none
                  else none

/-- `btc_addr_to_int` of `utils/btc_utils.py`. -/
def btc_addr_to_int (addr : String) : Option Nat :=
  match get_btc_address_type addr with
  | some BitcoinAddressType.P2PKH => b58addrtoint addr
  | some BitcoinAddressType.P2SH => b58addrtoint addr
  | some BitcoinAddressType.P2WPKH => bech32addrtoint addr
  | some BitcoinAddressType.P2WSH => bech32addrtoint addr
  | none => none

end btc_utils

namespace generate_snapshot_hash

/-- `PublicAddressInfo` of `generate_snapshot_hash.py`. -/
structure PublicAddressInfo where
  address : String
  balances : List Nat
deriving Repr

inductive AnonsetType where
  | BTC_PUBKEY
  | BTC_SCRIPT
  | ETH
deriving DecidableEq, Repr

/-- `make_address_integer_regs` of `generate_snapshot_hash.py`: one
register below `2 ** 200` for `BTC_PUBKEY` and `ETH`, two 128-bit limbs
(least significant first) for `BTC_SCRIPT`; each bound assertion is a
`none` branch. -/
def make_address_integer_regs (address : String) (anonset_type : AnonsetType) :
    Option (List Nat) :=
  match anonset_type with
  | AnonsetType.BTC_PUBKEY =>
      match btc_utils.btc_addr_to_int address with
      | none => none
      | some addr_int =>
          if addr_int < 2 ^ 200 then some [addr_int] else none
  | AnonsetType.BTC_SCRIPT =>
      match btc_utils.btc_addr_to_int address with
      | none => none
      | some addr_int =>
          if addr_int < 2 ^ 256 then
            some [addr_int % 2 ^ 128, addr_int / 2 ^ 128 % 2 ^ 128]
          else none
  | AnonsetType.ETH =>
      match pybuiltins.int_base16 address with
      | none => none
      | some addr_int =>
          if addr_int < 2 ^ 200 then some [addr_int] else none

/-- The scaled balance flattening of `get_anonset_hash` (its first loop
nest): for every address index and token index, look the balance up
(a short balance list raises an `IndexError`, `none`) and scale it from
snapshot precision to proof precision.  Balances are field elements of
the data model, hence non-negative; `Int.toNat` undoes the `Int`
embedding of `scale_units`, whose result on a non-negative input is
non-negative. -/
def flatten_balances (anonset : List PublicAddressInfo) (npubaddrs balanceDimension : Nat) :
    Option (List Nat) :=
  let balance_orders := common.get_balance_orders balanceDimension
  (optMapM
    (fun ii =>
      match anonset.get? ii with
      | none => none
      | some info =>
          optMapM
            (fun jj =>
              match balance_orders.get? jj, info.balances.get? jj with
              | some which_token, some snapshot_balance =>
                  (scaling.snapshot_precision_to_proof_precision which_token
                      (snapshot_balance : Int)).map Int.toNat
              | _, _ => none)
            (List.range balanceDimension))
    (List.range npubaddrs)).map List.flatten

/-- The address flattening of `get_anonset_hash` (its second loop nest).
The source initialises `address_len = None` and never assigns it, then
iterates `for jj in range(address_len)` inside `for ii in range(npubaddrs)`;
whenever the outer loop body runs at least once, `range(None)` raises a
`TypeError`.  The unassigned variable is the `Option.bind` on `none`
below, reached exactly when `npubaddrs > 0`. -/
def flatten_addresses (anonset_addresses : List (List Nat)) (npubaddrs : Nat) :
    Option (List Nat) :=
  let address_len : Option Nat := none
  (optMapM
    (fun ii =>
      address_len.bind
        (fun alen =>
          optMapM
            (fun jj => (anonset_addresses.get? ii).bind (fun regs => regs.get? jj))
            (List.range alen)))
    (List.range npubaddrs)).map
    List.flatten

/-- `get_anonset_hash` of `generate_snapshot_hash.py`: length assertion,
balance flattening and linear hash, per-address register computation,
address flattening (see `flatten_addresses`) and linear hash, then the
final arity-2 Poseidon hash. -/
def get_anonset_hash (anonset : List PublicAddressInfo) (anonset_type : AnonsetType)
    (npubaddrs : Nat) (balanceDimension : Nat) : Option Nat :=
  if anonset.length ≠ npubaddrs then none
  else
    match flatten_balances anonset npubaddrs balanceDimension with
    | none => none
    | some anonset_balances =>
        match poseidon_hash.linear_hash_many anonset_balances 16 with
        | none => none
        | some balances_hash =>
            match optMapM
                (fun ii =>
                  (anonset.get? ii).bind
                    (fun info => make_address_integer_regs info.address anonset_type))
                (List.range npubaddrs) with
            | none => none
            | some anonset_addresses =>
                match flatten_addresses anonset_addresses npubaddrs with
                | none => none
                | some flatted_anonset_addrs =>
                    match poseidon_hash.linear_hash_many flatted_anonset_addrs 16 with
                    | none => none
                    | some addrs_hash =>
                        poseidon_hash.poseidon_hash [balances_hash, addrs_hash] 2

end generate_snapshot_hash

namespace verify_public_proof

/-- One asset-base block of the public-outputs JSON: the fields read by
`get_abase_revealed_aggregate_hash`.  The source reads the per-name key
`hashed_vkey_<name>_base`; here it is the field `hashed_vkey_base` of the
named block. -/
structure AbasePubOutputs where
  hashed_pub_addrs : Nat
  min_owned_addr_selector : Nat
  max_owned_addr_selector : Nat
  msg_hash : Nat
  hashed_vkey_base : Nat
  hashed_vkey_anonsetagg : Nat
deriving Repr

/-- The `assets` subtree of the public-outputs JSON. -/
structure AssetsPubOutputs where
  eth : AbasePubOutputs
  btc : AbasePubOutputs
  btc_multi3 : AbasePubOutputs
  anonsetagg_vkey_hash : Nat
  dummy_vkey_hash : Nat
  assetsrec_vkey_hash : Nat
deriving Repr

/-- The `liabilities` subtree of the public-outputs JSON. -/
structure LiabPubOutputs where
  merkle_root : Nat
  hashed_vkey_liab_base : Nat
  hashed_vkey_liab_rec : Nat
deriving Repr

/-- The public-outputs JSON bundle handed to `hash_pub_outputs`. -/
structure PubOutputs where
  liabilities : LiabPubOutputs
  assets : AssetsPubOutputs
deriving Repr

/-- `hash_liab_pub_outputs` of `verify_public_proof.py`. -/
def hash_liab_pub_outputs (liab : LiabPubOutputs) : Option Nat :=
  poseidon_hash.poseidon_hash
    [liab.hashed_vkey_liab_base, liab.hashed_vkey_liab_rec, liab.merkle_root] 3

/-- `get_abase_revealed_aggregate_hash` of `verify_public_proof.py`:
the four 64-bit limbs of `msg_hash` (via `int_to_regs`, whose internal
assertion makes a too-large `msg_hash` raise), the source's own
`len(msg_hash_regs) == 4` assertion, then the arity-9 Poseidon hash of
the limbs followed by the five named fields, appended in source order. -/
def get_abase_revealed_aggregate_hash (abase : AbasePubOutputs) : Option Nat :=
  match common.int_to_regs abase.msg_hash with
  | none => none
  | some msg_hash_regs =>
      if msg_hash_regs.length ≠ 4 then none
      else
        poseidon_hash.poseidon_hash
          (msg_hash_regs ++
            [abase.hashed_pub_addrs, abase.min_owned_addr_selector,
              abase.max_owned_addr_selector, abase.hashed_vkey_base,
              abase.hashed_vkey_anonsetagg]) 9

/-- `hash_asset_pub_outputs` of `verify_public_proof.py`: the three
per-name aggregate hashes in order `eth`, `btc`, `btc_multi3`, then the
arity-8 hash of those three, a literal 0, `anonsetagg_vkey_hash` three
times, and `dummy_vkey_hash`, finally combined with
`assetsrec_vkey_hash` at arity 2. -/
def hash_asset_pub_outputs (assets : AssetsPubOutputs) : Option Nat :=
  match optMapM get_abase_revealed_aggregate_hash
      [assets.eth, assets.btc, assets.btc_multi3] with
  | none => none
  | some agg_hashes =>
      let dummy_agg_hash : Nat := 0
      let poseidon_inputs :=
        [agg_hashes.getD 0 0, agg_hashes.getD 1 0, agg_hashes.getD 2 0,
          dummy_agg_hash, assets.anonsetagg_vkey_hash, assets.anonsetagg_vkey_hash,
          assets.anonsetagg_vkey_hash, assets.dummy_vkey_hash]
      match poseidon_hash.poseidon_hash poseidon_inputs 8 with
      | none => none
      | some revealed_agg_hash_assetrec =>
          poseidon_hash.poseidon_hash
            [revealed_agg_hash_assetrec, assets.assetsrec_vkey_hash] 2

/-- `hash_pub_outputs` of `verify_public_proof.py`: liabilities hash,
assets hash, final arity-2 combination `[assets_hash, liab_hash]`. -/
def hash_pub_outputs (pub_outputs : PubOutputs) : Option Nat :=
  match hash_liab_pub_outputs pub_outputs.liabilities with
  | none => none
  | some liab_hash =>
      match hash_asset_pub_outputs pub_outputs.assets with
      | none => none
      | some assets_hash =>
          poseidon_hash.poseidon_hash [assets_hash, liab_hash] 2

/-- The `int_to_regs` decomposition in the words of spec section 4.3:
four limbs `x mod 2^64`, least significant first, defined for inputs
below `2^256`. -/
def int_to_regs_spec (x : Nat) : Option (List Nat) :=
  if x < 2 ^ 256 then
    some [x % 2 ^ 64, x / 2 ^ 64 % 2 ^ 64, x / 2 ^ 64 / 2 ^ 64 % 2 ^ 64,
      x / 2 ^ 64 / 2 ^ 64 / 2 ^ 64 % 2 ^ 64]
  else none

/-- `hash_abase` in the words of spec section 4.3. -/
def hash_abase_spec (A : AbasePubOutputs) : Option Nat :=
  match int_to_regs_spec A.msg_hash with
  | none => none
  | some msg_regs =>
      poseidon_hash.poseidon_hash
        (msg_regs ++
          [A.hashed_pub_addrs, A.min_owned_addr_selector,
            A.max_owned_addr_selector, A.hashed_vkey_base,
            A.hashed_vkey_anonsetagg]) 9

/-- `hash_assets` in the words of spec section 4.3. -/
def hash_assets_spec (S : AssetsPubOutputs) : Option Nat :=
  match hash_abase_spec S.eth, hash_abase_spec S.btc, hash_abase_spec S.btc_multi3 with
  | some agg0, some agg1, some agg2 =>
      match poseidon_hash.poseidon_hash
          [agg0, agg1, agg2, 0, S.anonsetagg_vkey_hash, S.anonsetagg_vkey_hash,
            S.anonsetagg_vkey_hash, S.dummy_vkey_hash] 8 with
      | none => none
      | some rec_h => poseidon_hash.poseidon_hash [rec_h, S.assetsrec_vkey_hash] 2
  | _, _, _ => none

/-- `pubhash` in the words of spec section 4.3. -/
def pubhash_spec (P : PubOutputs) : Option Nat :=
  match hash_assets_spec P.assets, hash_liab_pub_outputs P.liabilities with
  | some assets_hash, some liab_hash =>
      poseidon_hash.poseidon_hash [assets_hash, liab_hash] 2
  | _, _ => none

end verify_public_proof

namespace bn254_helpers

/-- The BN254 base-field modulus, the constant `P` of
`utils/bn254_helpers.py`. -/
def P : Nat := 21888242871839275222246405745257275088696311157297823662689037894645226208583

/-- Modular exponentiation by left-to-right square and multiply over the
binary digits of the exponent. -/
def powmod (a e m : Nat) : Nat :=
  (Nat.toDigits 2 e).foldl
    (fun acc c =>
      let sq := acc * acc % m
      if c = '1' then sq * a % m else sq)
    (1 % m)

/-- Inverse in the base field, as the `py_ecc` field division uses it
(`prime_field_inv`, with inverse of zero defined as zero; for the prime
modulus `P` the library's extended Euclid agrees with Fermat). -/
def finv (a : Nat) : Nat :=
  if a % P = 0 then 0 else powmod (a % P) (P - 2) P

def fadd (a b : Nat) : Nat := (a + b) % P

def fsub (a b : Nat) : Nat := (a + (P - b % P)) % P

def fmul (a b : Nat) : Nat := a * b % P

/-- Elements of Fp2 as pairs `(c0, c1)` with `u ^ 2 = -1`, following the
`py_ecc` `FQ2` coefficients. -/
def Fp2 : Type := Nat × Nat
deriving DecidableEq, Repr

def f2add (a b : Fp2) : Fp2 := (fadd a.1 b.1, fadd a.2 b.2)

def f2sub (a b : Fp2) : Fp2 := (fsub a.1 b.1, fsub a.2 b.2)

def f2mul (a b : Fp2) : Fp2 :=
  (fsub (fmul a.1 b.1) (fmul a.2 b.2), fadd (fmul a.1 b.2) (fmul a.2 b.1))

/-- Inverse in Fp2 via the conjugate over the norm. -/
def f2inv (a : Fp2) : Fp2 :=
  let norm_inv := finv (fadd (fmul a.1 a.1) (fmul a.2 a.2))
  (fmul a.1 norm_inv, fsub 0 (fmul a.2 norm_inv))

def f2div (a b : Fp2) : Fp2 := f2mul a (f2inv b)

/-- The G1 curve constant `b = 3` of `utils/bn254_helpers.py`. -/
def bG1 : Nat := 3

/-- The twisted-curve constant `b2 = FQ2([3, 0]) / FQ2([9, 1])` of
`utils/bn254_helpers.py`. -/
def b2 : Fp2 := f2div (3, 0) (9, 1)

/-- `on_curve_check` of `utils/bn254_helpers.py` for a reduced affine G1
pair: `y ^ 2 - x ^ 3 == b`. -/
def on_curve_g1 (x y : Nat) : Bool :=
  fsub (fmul y y) (fmul x (fmul x x)) = bG1

/-- `on_curve_check` for a reduced affine twist pair. -/
def on_curve_g2 (x y : Fp2) : Bool :=
  f2sub (f2mul y y) (f2mul x (f2mul x x)) = b2

/-- The `G1Point` class of `utils/bn254_helpers.py`: a pair of reduced
base-field coordinates; the constructor (`G1Point.ofPoint`) reduces the
raw integers modulo `P` as `FQ` does and models the class's on-curve
assertion as `none`. -/
structure G1Point where
  x : Nat
  y : Nat
deriving DecidableEq, Repr

def G1Point.ofReduced (x y : Nat) : Option G1Point :=
  if on_curve_g1 x y then some (G1Point.mk x y) else none

def G1Point.ofPoint (point : Int × Int) : Option G1Point :=
  G1Point.ofReduced (point.1 % (P : Int)).toNat (point.2 % (P : Int)).toNat

/-- Affine points of the `py_ecc` curve layer, with `none` the point at
infinity. -/
def PtG1 : Type := Option (Nat × Nat)

/-- `bn128_curve.double`. -/
def curve_double (pt : Nat × Nat) : Nat × Nat :=
  let l := fmul (fmul 3 (fmul pt.1 pt.1)) (finv (fmul 2 pt.2))
  let newx := fsub (fmul l l) (fmul 2 pt.1)
  let newy := fsub (fmul l (fsub pt.1 newx)) pt.2
  (newx, newy)

/-- `bn128_curve.add`. -/
def curve_add (p1 p2 : PtG1) : PtG1 :=
  match p1, p2 with
  | none, q => q
  | q, none => q
  | some (x1, y1), some (x2, y2) =>
      if x2 = x1 ∧ y2 = y1 then some (curve_double (x1, y1))
      else if x2 = x1 then none
      else
        let l := fmul (fsub y2 y1) (finv (fsub x2 x1))
        let newx := fsub (fsub (fmul l l) x1) x2
        let newy := fsub (fmul l (fsub x1 newx)) y1
        some (newx, newy)

/-- `bn128_curve.multiply`, a double-and-add recursion on the scalar;
the fuel argument only bounds the recursion depth (`n + 1` always
suffices, since the scalar at least halves each step). -/
def multiply_go : Nat → PtG1 → Nat → PtG1
  | _, _, 0 => none
  | _, pt, 1 => pt
  | 0, _, _ => none
  | fuel + 1, pt, n + 2 =>
      if (n + 2) % 2 = 0 then multiply_go fuel (Option.map curve_double pt) ((n + 2) / 2)
      else curve_add (multiply_go fuel (Option.map curve_double pt) ((n + 2) / 2)) pt

def multiply (pt : PtG1) (n : Nat) : PtG1 :=
  multiply_go (n + 1) pt n

/-- `negate_g1` of `utils/bn254_helpers.py` (the result passes back
through the `G1Point` constructor, hence the on-curve check). -/
def negate_g1 (p1 : G1Point) : Option G1Point :=
  G1Point.ofReduced p1.x (fsub 0 p1.y)

/-- `add_g1` of `utils/bn254_helpers.py`: the curve-layer sum wrapped in
the `G1Point` constructor; the constructor crashes on the
point-at-infinity result (`FQ(None[0])` raises), which is `none` here. -/
def add_g1 (p1 p2 : G1Point) : Option G1Point :=
  match curve_add (some (p1.x, p1.y)) (some (p2.x, p2.y)) with
  | none => none
  | some (x, y) => G1Point.ofReduced x y

/-- `scalar_mult_g1` of `utils/bn254_helpers.py`. -/
def scalar_mult_g1 (scalar : Nat) (p1 : G1Point) : Option G1Point :=
  match multiply (some (p1.x, p1.y)) scalar with
  | none => none
  | some (x, y) => G1Point.ofReduced x y

/-- The `G2Point` class of `utils/bn254_helpers.py` in its `point` form:
two reduced Fp2 coordinates, with the constructor's on-curve assertion
modelled in `G2Point.ofPoint`. -/
structure G2Point where
  x : Fp2
  y : Fp2
deriving DecidableEq, Repr

def G2Point.ofPoint (point : (Int × Int) × (Int × Int)) : Option G2Point :=
  if on_curve_g2 ((point.1.1 % (P : Int)).toNat, (point.1.2 % (P : Int)).toNat)
      ((point.2.1 % (P : Int)).toNat, (point.2.2 % (P : Int)).toNat) then
    some (G2Point.mk
      ((point.1.1 % (P : Int)).toNat, (point.1.2 % (P : Int)).toNat)
      ((point.2.1 % (P : Int)).toNat, (point.2.2 % (P : Int)).toNat))
  else none

/-- Elements of Fp12 as coefficient lists of length 12 over the base
field, following the `py_ecc` `FQ12` polynomial representation modulo
`w ^ 12 - 18 * w ^ 6 + 82`. -/
def Fp12 : Type := List Nat
deriving DecidableEq, Repr

def f12one : Fp12 := 1 :: List.replicate 11 0

/-- Adds `v` into position `i` of a coefficient list. -/
def coeff_add_at (l : List Nat) (i : Nat) (v : Nat) : List Nat :=
  (List.range l.length).map (fun k => if k = i then fadd (l.getD k 0) v else l.getD k 0)

/-- One step of the `py_ecc` polynomial reduction: remove the top
coefficient `c` at degree `n - 1` and fold `c * w ^ (n - 1) =
c * w ^ (n - 13) * (18 * w ^ 6 - 82)` back in. -/
def f12reduce_step (l : List Nat) : List Nat :=
  let n := l.length
  let c := l.getD (n - 1) 0
  let l := l.take (n - 1)
  let l := coeff_add_at l (n - 13) (fsub 0 (fmul 82 c))
  coeff_add_at l (n - 7) (fmul 18 c)

def f12reduce_go : Nat → List Nat → List Nat
  | 0, l => l
  | fuel + 1, l => if l.length ≤ 12 then l else f12reduce_go fuel (f12reduce_step l)

/-- Multiplication in Fp12: polynomial product (degree up to 22) reduced
down to 12 coefficients, as the `py_ecc` `FQ12.__mul__` does. -/
def f12mul (a b : Fp12) : Fp12 :=
  let raw := (List.range 23).map
    (fun k =>
      ((List.range (k + 1)).foldl
        (fun acc i => acc + a.getD i 0 * b.getD (k - i) 0) 0) % P)
  f12reduce_go 11 raw

/-- `pairings_help` of `utils/bn254_helpers.py`, parameterized by the
pairing map (the source calls `py_ecc.bn128_pairing.pairing(p2, p1)`,
an external library whose Miller loop the spec leaves to "standard BN254
conventions"): the length assertion, the pointwise pairings, their
product, and the comparison with `FQ12.one()`.  An empty list makes the
source's `results[0]` raise (`none`). -/
def pairings_help (pairingFn : G2Point → G1Point → Fp12)
    (p1s : List G1Point) (p2s : List G2Point) : Option Bool :=
  if p1s.length ≠ p2s.length then none
  else
    match (p1s.zip p2s).map (fun q => pairingFn q.2 q.1) with
    | [] => none
    | r0 :: rest => some (decide (rest.foldl f12mul r0 = f12one))

end bn254_helpers

namespace verify_proof

open bn254_helpers

/-- The scalar-field modulus checked by `verify` in `verify_proof.py`. -/
def snark_scalar_field : Nat :=
  21888242871839275222246405745257275088548364400416034343698204186575808495617

/-- `VerifyingKey` of `verify_proof.py`. -/
structure VerifyingKey where
  alpha1 : G1Point
  beta2 : G2Point
  gamma2 : G2Point
  delta2 : G2Point
  IC0 : G1Point
  IC1 : G1Point

/-- `Proof` of `verify_proof.py`. -/
structure Proof where
  A : G1Point
  B : G2Point
  C : G1Point

/-- `verify` of `verify_proof.py`, parameterized by the pairing map:
the `input < snark_scalar_field` assertion, `vk_x = IC0 + input * IC1`,
and the four-pairing product check on `[-A, alpha1, vk_x, C]` against
`[B, beta2, gamma2, delta2]`. -/
def verify (pairingFn : G2Point → G1Point → Fp12) (input : Nat)
    (proof : Proof) (vk : VerifyingKey) : Option Bool :=
  if input < snark_scalar_field then
    match scalar_mult_g1 input vk.IC1 with
    | none => none
    | some temp2 =>
        match add_g1 vk.IC0 temp2 with
        | none => none
        | some vk_x =>
            match negate_g1 proof.A with
            | none => none
            | some negA =>
                pairings_help pairingFn [negA, vk.alpha1, vk_x, proof.C]
                  [proof.B, vk.beta2, vk.gamma2, vk.delta2]
  else none

/-- `raw_to_G1` of `verify_proof.py` on already `int`-parsed raw data:
the length-2 assertion and the `G1Point` construction. -/
def raw_to_G1 (raw : List Int) : Option G1Point :=
  if raw.length = 2 then G1Point.ofPoint (raw.getD 0 0, raw.getD 1 0) else none

/-- `raw_to_G2` of `verify_proof.py`: three length-2 assertions and the
coefficient swap `(item[1], item[0])` on each coordinate before the
`G2Point` construction. -/
def raw_to_G2 (raw : List (List Int)) : Option G2Point :=
  if raw.length = 2 ∧ (raw.getD 0 []).length = 2 ∧ (raw.getD 1 []).length = 2 then
    G2Point.ofPoint
      (((raw.getD 0 []).getD 1 0, (raw.getD 0 []).getD 0 0),
        ((raw.getD 1 []).getD 1 0, (raw.getD 1 []).getD 0 0))
  else none

/-- The raw (`int`-parsed JSON) form of a proof. -/
structure RawProof where
  pi_a : List Int
  pi_b : List (List Int)
  pi_c : List Int

/-- The raw (`int`-parsed JSON) form of a verifying key. -/
structure RawVk where
  vk_alpha_1 : List Int
  vk_beta_2 : List (List Int)
  vk_gamma_2 : List (List Int)
  vk_delta_2 : List (List Int)
  IC : List (List Int)

/-- `parse_proof` of `verify_proof.py` after JSON loading. -/
def parse_proof (raw : RawProof) : Option Proof :=
  match raw_to_G1 raw.pi_a, raw_to_G2 raw.pi_b, raw_to_G1 raw.pi_c with
  | some a, some b, some c => some (Proof.mk a b c)
  | _, _, _ => none

/-- `parse_vk` of `verify_proof.py` after JSON loading (`IC[0]` or
`IC[1]` missing raises, `none`). -/
def parse_vk (raw : RawVk) : Option VerifyingKey :=
  match raw_to_G1 raw.vk_alpha_1, raw_to_G2 raw.vk_beta_2, raw_to_G2 raw.vk_gamma_2,
      raw_to_G2 raw.vk_delta_2, raw.IC.get? 0, raw.IC.get? 1 with
  | some alpha1, some beta2, some gamma2, some delta2, some ic0raw, some ic1raw =>
      match raw_to_G1 ic0raw, raw_to_G1 ic1raw with
      | some ic0, some ic1 => some (VerifyingKey.mk alpha1 beta2 gamma2 delta2 ic0 ic1)
      | _, _ => none
  | _, _, _, _, _, _ => none

/-- The `main` pipeline of `verify_proof.py` on raw data: parse the
proof, parse the verifying key, then run the pairing check of
section 4.6. -/
def verify_raw (pairingFn : G2Point → G1Point → Fp12) (input : Nat)
    (rawProof : RawProof) (rawVk : RawVk) : Option Bool :=
  match parse_proof rawProof with
  | none => none
  | some proof =>
      match parse_vk rawVk with
      | none => none
      | some vk => verify pairingFn input proof vk

end verify_proof

namespace pystr

/-- UTF-8 encoding of one character, as Python's `str.encode` produces
it. -/
def utf8_encode_char (c : Char) : List Nat :=
  let n := c.toNat
  if n < 128 then [n]
  else if n < 2048 then [192 ||| (n >>> 6), 128 ||| (n &&& 63)]
  else if n < 65536 then
    [224 ||| (n >>> 12), 128 ||| ((n >>> 6) &&& 63), 128 ||| (n &&& 63)]
  else
    [240 ||| (n >>> 18), 128 ||| ((n >>> 12) &&& 63), 128 ||| ((n >>> 6) &&& 63),
      128 ||| (n &&& 63)]

/-- Python's `str.encode()`: the UTF-8 byte list of a string. -/
def encode (s : String) : List Nat :=
  (s.data.map utf8_encode_char).flatten

/-- Python character indexing `s[i]` with negative-index wraparound; an
index out of range raises (`none`). -/
def char_at (s : String) (i : Int) : Option Char :=
  let len : Int := s.data.length
  let k := if i < 0 then len + i else i
  if 0 ≤ k ∧ k < len then s.data.get? k.toNat else none

/-- Python slicing `s[:j]` with negative-index and clamping semantics. -/
def slice_to (s : String) (j : Int) : String :=
  let len : Int := s.data.length
  let k := if j < 0 then len + j else j
  String.mk (s.data.take k.toNat)

/-- Python slicing `s[i:]` with negative-index and clamping semantics. -/
def slice_from (s : String) (i : Int) : String :=
  let len : Int := s.data.length
  let k := if i < 0 then len + i else i
  String.mk (s.data.drop k.toNat)

end pystr

namespace hashlib

/-- 2 ^ 64, the word modulus of SHA-512. -/
def M64 : Nat := 2 ^ 64

/-- Rotate a 64-bit word right by `n`. -/
def rotr (n x : Nat) : Nat := ((x >>> n) ||| (x <<< (64 - n))) % M64

def big_sigma0 (x : Nat) : Nat := rotr 28 x ^^^ rotr 34 x ^^^ rotr 39 x

def big_sigma1 (x : Nat) : Nat := rotr 14 x ^^^ rotr 18 x ^^^ rotr 41 x

def small_sigma0 (x : Nat) : Nat := rotr 1 x ^^^ rotr 8 x ^^^ (x >>> 7)

def small_sigma1 (x : Nat) : Nat := rotr 19 x ^^^ rotr 61 x ^^^ (x >>> 6)

def ch_f (x y z : Nat) : Nat := (x &&& y) ^^^ ((x ^^^ (M64 - 1)) &&& z)

def maj_f (x y z : Nat) : Nat := (x &&& y) ^^^ (x &&& z) ^^^ (y &&& z)

/-- The SHA-512 initial hash values (FIPS 180-4). -/
def H0 : List Nat :=
  [7640891576956012808, 13503953896175478587, 4354685564936845355,
    11912009170470909681, 5840696475078001361, 11170449401992604703,
    2270897969802886507, 6620516959819538809]

/-- The 80 SHA-512 round constants (FIPS 180-4). -/
def K : List Nat :=
  [4794697086780616226, 8158064640168781261, 13096744586834688815, 16840607885511220156,
    4131703408338449720, 6480981068601479193, 10538285296894168987, 12329834152419229976,
    15566598209576043074, 1334009975649890238, 2608012711638119052, 6128411473006802146,
    8268148722764581231, 9286055187155687089, 11230858885718282805, 13951009754708518548,
    16472876342353939154, 17275323862435702243, 1135362057144423861, 2597628984639134821,
    3308224258029322869, 5365058923640841347, 6679025012923562964, 8573033837759648693,
    10970295158949994411, 12119686244451234320, 12683024718118986047, 13788192230050041572,
    14330467153632333762, 15395433587784984357, 489312712824947311, 1452737877330783856,
    2861767655752347644, 3322285676063803686, 5560940570517711597, 5996557281743188959,
    7280758554555802590, 8532644243296465576, 9350256976987008742, 10552545826968843579,
    11727347734174303076, 12113106623233404929, 14000437183269869457, 14369950271660146224,
    15101387698204529176, 15463397548674623760, 17586052441742319658, 1182934255886127544,
    1847814050463011016, 2177327727835720531, 2830643537854262169, 3796741975233480872,
    4115178125766777443, 5681478168544905931, 6601373596472566643, 7507060721942968483,
    8399075790359081724, 8693463985226723168, 9568029438360202098, 10144078919501101548,
    10430055236837252648, 11840083180663258601, 13761210420658862357, 14299343276471374635,
    14566680578165727644, 15097957966210449927, 16922976911328602910, 17689382322260857208,
    500013540394364858, 748580250866718886, 1242879168328830382, 1977374033974150939,
    2944078676154940804, 3659926193048069267, 4368137639120453308, 4836135668995329356,
    5532061633213252278, 6448918945643986474, 6902733635092675308, 7801388544844847127]

/-- SHA-512 message padding: `0x80`, zeros to 112 mod 128, and the
128-bit big-endian bit length. -/
def pad (msg : List Nat) : List Nat :=
  let l := msg.length
  let zeros := (239 - l % 128) % 128
  let bitlen := 8 * l
  msg ++ [128] ++ List.replicate zeros 0 ++
    (List.range 16).map (fun i => (bitlen >>> (8 * (15 - i))) % 256)

/-- The 16 big-endian 64-bit words of one 128-byte block. -/
def block_words (block : List Nat) : List Nat :=
  (common.split_into_chunks block 8).map pybuiltins.from_bytes_big

/-- The 80-word SHA-512 message schedule. -/
def schedule (w16 : List Nat) : List Nat :=
  (List.range 64).foldl
    (fun w _ =>
      let t := w.length
      w ++ [(small_sigma1 (w.getD (t - 2) 0) + w.getD (t - 7) 0 +
        small_sigma0 (w.getD (t - 15) 0) + w.getD (t - 16) 0) % M64])
    w16

/-- One SHA-512 compression round. -/
def round_step (kt wt : Nat) (st : List Nat) : List Nat :=
  let a := st.getD 0 0
  let b := st.getD 1 0
  let c := st.getD 2 0
  let d := st.getD 3 0
  let e := st.getD 4 0
  let f := st.getD 5 0
  let g := st.getD 6 0
  let h := st.getD 7 0
  let t1 := (h + big_sigma1 e + ch_f e f g + kt + wt) % M64
  let t2 := (big_sigma0 a + maj_f a b c) % M64
  [(t1 + t2) % M64, a, b, c, (d + t1) % M64, e, f, g]

/-- Compress one block into the running hash state. -/
def compress (st : List Nat) (block : List Nat) : List Nat :=
  let w := schedule (block_words block)
  let fin := (List.range 80).foldl (fun acc t => round_step (K.getD t 0) (w.getD t 0) acc) st
  (List.range 8).map (fun i => (st.getD i 0 + fin.getD i 0) % M64)

/-- The SHA-512 digest of a byte list, as the big-endian integer that
Python's `int(hashlib.sha512(x).hexdigest(), 16)` yields. -/
def sha512_int (msg : List Nat) : Nat :=
  let final := (common.split_into_chunks (pad msg) 128).foldl compress H0
  final.foldl (fun acc h => acc * M64 + h) 0

end hashlib

namespace verify_receipt

def ACCT_BALANCE_BITS : Nat := 42

def ACCT_BALANCES_PER_ELT : Nat := 6

/-- The receipt after JSON loading and string splitting: the fields of
`verify_receipt.py`'s receipt dict, with `merkle_branch` already split
on `;` and `,` into integer preimages and the arities already
`int`-parsed (the file decoding is outside the spec's scope). -/
structure Receipt where
  username : String
  nonce : String
  account_id : String
  balances : List (String × String)
  merkle_root : Nat
  merkle_branch : List (List Nat)
  merkle_arity : Nat
  merkle_leaf_hash_arity : Nat
deriving Repr

/-- `unformat_balance_value_from_receipt` of `verify_receipt.py`:
decimal-place count by case-insensitive token name (an unsupported token
raises), the `.` position assertion at Python index `len - places - 1`
(with Python's negative-index wraparound), removal of the `.` via the
two Python slices, and the final `int` parse. -/
def unformat_balance_value_from_receipt (token : String) (balance_str : String) :
    Option Nat :=
  let num_decimal_places : Option Nat :=
    if pybuiltins.str_upper token = pybuiltins.str_upper common.BITCOIN_TOKEN then
      common.ACCT_PRECISION_DICT common.BITCOIN_TOKEN
    else if pybuiltins.str_upper token = pybuiltins.str_upper common.ETHER_TOKEN then
      common.ACCT_PRECISION_DICT common.ETHER_TOKEN
    else none
  match num_decimal_places with
  | none => none
  | some places =>
      let decimal_idx : Int := (balance_str.data.length : Int) - places - 1
      match pystr.char_at balance_str decimal_idx with
      | none => none
      | some c =>
          if c = '.' then
            pybuiltins.int_base10
              (pystr.slice_to balance_str decimal_idx ++
                pystr.slice_from balance_str (decimal_idx + 1))
          else none

/-- `_calculate_account_id` of `verify_receipt.py`: the 512-bit binary
string of the SHA-512 digest of `username + nonce`, its first 252
characters parsed back as binary. -/
def calculate_account_id (username nonce : String) : Option Nat :=
  let x := username ++ nonce
  let digest := hashlib.sha512_int (pystr.encode x)
  match common.int_to_bin digest 512 with
  | none => none
  | some full_bin_str => pybuiltins.int_base2 (String.mk (full_bin_str.data.take 252))

/-- `_pack_balance` of `verify_receipt.py`: the 42-bit little-endian
lane packing of one chunk. -/
def _pack_balance (chunk : List Nat) : Nat :=
  (chunk.foldl (fun st balance => (st.1 + st.2 * balance, st.2 * 2 ^ ACCT_BALANCE_BITS))
    ((0 : Nat), (1 : Nat))).1

/-- `get_account_info_packed` of `verify_receipt.py`. -/
def get_account_info_packed (account_id : Nat) (balances : List Nat) : List Nat :=
  account_id :: (common.split_into_chunks balances ACCT_BALANCES_PER_ELT).map _pack_balance

/-- The `balance_map` loop of `verify_receipt`: unformat every entry (the
first failure raises) keeping the raw token string as key; a later entry
for the same key overwrites an earlier one, so lookups search the
reversed list. -/
def receipt_balance_entries (r : Receipt) : Option (List (String × Nat)) :=
  optMapM
    (fun e =>
      match unformat_balance_value_from_receipt e.1 e.2 with
      | none => none
      | some v => some (e.1, v))
    r.balances

/-- The `receipt_balances` loop of `verify_receipt`: for each token of
the balance order, the mapped balance (default 0), scaled from account
precision to proof precision unless it is zero. -/
def receipt_balances_for_proof (r : Receipt) : Option (List Nat) :=
  match receipt_balance_entries r with
  | none => none
  | some entries =>
      optMapM
        (fun tok =>
          let balance := ((entries.reverse).lookup tok).getD 0
          if balance = 0 then some 0
          else
            (scaling.account_precision_to_proof_precision tok (balance : Int)).map
              Int.toNat)
        (common.get_balance_orders common.BALANCE_DIMENSION)

/-- The packed leaf preimage `[account_id] ++ pack6(balances_for_proof)`
that step 2a of `verify_receipt` compares against the first Merkle
preimage. -/
def receipt_leaf (r : Receipt) : Option (List Nat) :=
  match pybuiltins.int_base16 r.account_id, receipt_balances_for_proof r with
  | some receipt_account_id, some receipt_balances =>
      some (get_account_info_packed receipt_account_id receipt_balances)
  | _, _ => none

/-- The step 2c membership bits: for every adjacent preimage pair, hash
the lower preimage at the leaf arity (level 0) or the Merkle arity and
test membership in the upper preimage. -/
def merkle_membership_bits (r : Receipt) : Option (List Bool) :=
  optMapM
    (fun i =>
      let arity := if i = 0 then r.merkle_leaf_hash_arity else r.merkle_arity
      match poseidon_hash.poseidon_hash (r.merkle_branch.getD i []) arity with
      | none => none
      | some curr_hash => some (decide (curr_hash ∈ r.merkle_branch.getD (i + 1) [])))
    (List.range (r.merkle_branch.length - 1))

/-- `verify_receipt` of `verify_receipt.py`: account-id comparison
(step 1), leaf-preimage comparison (2a), root comparison (2b) and the
adjacent-membership loop (2c), returning
`(correct_account_id, merkle_branch_valid)`. -/
def verify_receipt (r : Receipt) : Option (Bool × Bool) :=
  match calculate_account_id r.username r.nonce with
  | none => none
  | some acct_id =>
      let expected_account_id := pybuiltins.hex acct_id
      let correct_account_id := decide (expected_account_id = r.account_id)
      match receipt_leaf r with
      | none => none
      | some leaf =>
          match r.merkle_branch.get? 0 with
          | none => none
          | some preimage0 =>
              let cond2a := decide (leaf = preimage0)
              match r.merkle_branch.getLast? with
              | none => none
              | some last_preimage =>
                  match poseidon_hash.poseidon_hash last_preimage r.merkle_arity with
                  | none => none
                  | some top_hash =>
                      let cond2b := decide (top_hash = r.merkle_root)
                      match merkle_membership_bits r with
                      | none => none
                      | some bits =>
                          some (correct_account_id,
                            cond2a && cond2b && bits.all (fun b => b))

end verify_receipt

section claim_theorems

open poseidon_hash

/-! Helper lemmas shared by several claim proofs. -/

theorem hex_char_val_getD_lt (c : Char) : (pybuiltins.hex_char_val c).getD 0 < 16 := by
  unfold pybuiltins.hex_char_val
  split_ifs with h1 h2 h3
  · have hc : c.toNat ≤ 57 := h1.2
    have hz : Char.toNat '0' = 48 := rfl
    simp only [Option.getD_some, hz]
    omega
  · have hc : c.toNat ≤ 102 := h2.2
    have hz : Char.toNat 'a' = 97 := rfl
    simp only [Option.getD_some, hz]
    omega
  · have hc : c.toNat ≤ 70 := h3.2
    have hz : Char.toNat 'A' = 65 := rfl
    simp only [Option.getD_some, hz]
    omega
  · simp

theorem split_chunks_go_subset (c : Nat) :
    ∀ (fuel : Nat) (l q : List Nat), q ∈ common.split_into_chunks_go c fuel l →
      ∀ x ∈ q, x ∈ l := by
  intro fuel
  induction fuel with
  | zero =>
      intro l q hq
      cases l <;> simp [common.split_into_chunks_go] at hq
  | succ fuel ih =>
      intro l q hq x hx
      cases l with
      | nil => simp [common.split_into_chunks_go] at hq
      | cons a as =>
          simp only [common.split_into_chunks_go, List.mem_cons] at hq
          rcases hq with rfl | hq
          · exact List.mem_of_mem_take hx
          · exact List.mem_of_mem_drop (ih _ q hq x hx)

theorem hex_even_bytes_lt (t : Nat) : ∀ b ∈ btc_utils.hex_even_bytes t, b < 256 := by
  intro b hb
  unfold btc_utils.hex_even_bytes at hb
  rw [List.mem_map] at hb
  obtain ⟨q, hq, rfl⟩ := hb
  have hsub := split_chunks_go_subset 2 _ _ q hq
  have hlt : ∀ x ∈ q, x < 16 := by
    intro x hx
    have hx2 := hsub x hx
    rw [List.mem_map] at hx2
    obtain ⟨ch, _, rfl⟩ := hx2
    exact hex_char_val_getD_lt ch
  have h0 : q.getD 0 0 < 16 := by
    rw [List.getD_eq_getElem?_getD]
    cases hg : q[0]? with
    | none => simp
    | some x => simpa using hlt x (List.getElem?_mem hg)
  have h1 : q.getD 1 0 < 16 := by
    rw [List.getD_eq_getElem?_getD]
    cases hg : q[1]? with
    | none => simp
    | some x => simpa using hlt x (List.getElem?_mem hg)
  omega

theorem foldl_bytes_lt :
    ∀ (l : List Nat) (a : Nat), (∀ b ∈ l, b < 256) →
      l.foldl (fun acc b => acc * 256 + b) a < (a + 1) * 256 ^ l.length := by
  intro l
  induction l with
  | nil => intro a _; simpa using Nat.lt_succ_self a
  | cons b bs ih =>
      intro a hb
      have hb0 : b < 256 := hb b (List.mem_cons_self b bs)
      have hrest : ∀ x ∈ bs, x < 256 := fun x hx => hb x (List.mem_cons_of_mem b hx)
      have h1 := ih (a * 256 + b) hrest
      have h2 : (a * 256 + b + 1) * 256 ^ bs.length ≤ (a + 1) * 256 ^ (b :: bs).length := by
        simp only [List.length_cons, pow_succ]
        calc (a * 256 + b + 1) * 256 ^ bs.length
            ≤ ((a + 1) * 256) * 256 ^ bs.length := by
              apply Nat.mul_le_mul_right
              omega
          _ = (a + 1) * (256 ^ bs.length * 256) := by ring
      calc (b :: bs).foldl (fun acc x => acc * 256 + x) a
          = bs.foldl (fun acc x => acc * 256 + x) (a * 256 + b) := by simp [List.foldl_cons]
        _ < (a * 256 + b + 1) * 256 ^ bs.length := h1
        _ ≤ (a + 1) * 256 ^ (b :: bs).length := h2

theorem from_bytes_big_lt (l : List Nat) (h : ∀ b ∈ l, b < 256) :
    pybuiltins.from_bytes_big l < 256 ^ l.length := by
  have := foldl_bytes_lt l 0 h
  simpa [pybuiltins.from_bytes_big] using this

theorem optMapM_bool_all_iff {f : Nat → Option Bool} :
    ∀ {xs : List Nat} {l : List Bool}, optMapM f xs = some l →
      ((l.all (fun b => b)) = true ↔ ∀ x ∈ xs, f x = some true) := by
  intro xs
  induction xs with
  | nil =>
      intro l h
      simp only [optMapM] at h
      cases h
      simp
  | cons x xs ih =>
      intro l h
      simp only [optMapM] at h
      cases hfx : f x with
      | none => rw [hfx] at h; simp at h
      | some y =>
          rw [hfx] at h
          cases hrest : optMapM f xs with
          | none => rw [hrest] at h; simp at h
          | some ys =>
              rw [hrest] at h
              simp only [Option.some.injEq] at h
              subst h
              have hih := ih hrest
              constructor
              · intro hall
                simp only [List.all_cons, Bool.and_eq_true] at hall
                intro z hz
                rcases List.mem_cons.mp hz with rfl | hz2
                · rw [hfx]; simpa using hall.1
                · exact hih.mp hall.2 z hz2
              · intro hforall
                simp only [List.all_cons, Bool.and_eq_true]
                refine ⟨?_, hih.mpr (fun z hz => hforall z (List.mem_cons_of_mem x hz))⟩
                have := hforall x (List.mem_cons_self x xs)
                rw [hfx] at this
                simpa using this.symm

/-- Every non-empty address flattening fails: `address_len` is `None`
(never assigned) and `range(None)` raises as soon as the outer loop body
runs. -/
theorem flatten_addresses_none (aa : List (List Nat)) (n : Nat) (h : 1 ≤ n) :
    generate_snapshot_hash.flatten_addresses aa n = none := by
  obtain ⟨m, rfl⟩ : ∃ m, n = m + 1 := ⟨n - 1, by omega⟩
  unfold generate_snapshot_hash.flatten_addresses
  rw [List.range_succ_eq_map]
  simp [optMapM, Option.bind]

/-- Claim C1: the code raises instead of returning the digest.  For every
anonymity set of declared positive length (in particular the synthetic
two-element `BTC_PUBKEY` anonset of scenario E6), `get_anonset_hash`
raises a `TypeError` at `range(address_len)` because `address_len` is
initialised to `None` and never assigned; no digest is ever returned.
The claim correctly describes the intended digest (as spec section 9
confirms: the implementer must derive the register count from the
anonset type), so this is a bug in the code, not in the claim. -/
theorem C1_get_anonset_hash_always_raises
    (anonset : List generate_snapshot_hash.PublicAddressInfo)
    (anonset_type : generate_snapshot_hash.AnonsetType)
    (npubaddrs balanceDimension : Nat) (h : 1 ≤ npubaddrs) :
    generate_snapshot_hash.get_anonset_hash anonset anonset_type npubaddrs
      balanceDimension = none := by
  unfold generate_snapshot_hash.get_anonset_hash
  split
  · rfl
  · split
    · rfl
    · split
      · rfl
      · split
        · rfl
        · rename_i anonset_addresses _
          rw [flatten_addresses_none anonset_addresses npubaddrs h]

/-- Claim C1 witness: the scenario E6 anonset (two `BTC_PUBKEY` addresses
with zero balances, declared length 2) makes `get_anonset_hash` raise. -/
theorem C1_get_anonset_hash_always_raises_witness :
    generate_snapshot_hash.get_anonset_hash
      [generate_snapshot_hash.PublicAddressInfo.mk
          "1A1zP1eP5QGefi2DMPTfTL5SLmv7DivfNa" (List.replicate 18 0),
        generate_snapshot_hash.PublicAddressInfo.mk
          "3P14159f73E4gFr7JterCCQh9QjiTjiZrG" (List.replicate 18 0)]
      generate_snapshot_hash.AnonsetType.BTC_PUBKEY 2 18 = none :=
  C1_get_anonset_hash_always_raises _ _ 2 18 (by decide)

/-- Claim C8: the code rejects every all-uppercase bech32 address.  The
source's case assertion compares the unbound method object
`addr_str.upper` (it is never called) with the address string, which is
always false in Python, so the 42-character all-uppercase BIP-173
`P2WPKH` address below fails the assertion, while its lowercase form is
accepted and decodes exactly as the claim describes (two 128-bit limbs,
least significant first).  The assertion's own message shows the intent
was to accept a consistent case, so this is a bug in the code, not in the
claim. -/
theorem C8_bech32_uppercase_rejected :
    btc_utils.bech32addrtoint "BC1QW508D6QEJXTDG4Y5R3ZARVARY0C5XW7KV8F3T4" = none ∧
    btc_utils.bech32addrtoint "bc1qw508d6qejxtdg4y5r3zarvary0c5xw7kv8f3t4" =
      some 668631300771580858519448973337422070966705667030 ∧
    generate_snapshot_hash.make_address_integer_regs
        "bc1qw508d6qejxtdg4y5r3zarvary0c5xw7kv8f3t4"
        generate_snapshot_hash.AnonsetType.BTC_SCRIPT =
      some [33986642123097242963828673270044113878, 1964930792] := by
  refine ⟨by decide, by decide, by decide⟩

/-- Claim C9: `scale_units` multiplies when the output precision is at
least the input precision, floor-divides with optional round-up
otherwise, rejects negative values, and both precision wrappers pass
unknown tokens through unchanged. -/
theorem C9_scale_units_spec (v : Int) (in_dec out_dec : Nat) (round_up : Bool)
    (tok : String) :
    (0 ≤ v →
      scaling.scale_units v in_dec out_dec round_up =
        some (if in_dec ≤ out_dec then v * 10 ^ (out_dec - in_dec)
          else if round_up = true ∧ v % 10 ^ (in_dec - out_dec) ≠ 0 then
            v / 10 ^ (in_dec - out_dec) + 1
          else v / 10 ^ (in_dec - out_dec))) ∧
    (v < 0 → scaling.scale_units v in_dec out_dec round_up = none) ∧
    ((common.SNAPSHOT_PRECISION_DICT tok).isNone ∨
        (common.PROOF_PRECISION_DICT tok).isNone →
      scaling.snapshot_precision_to_proof_precision tok v = some v) ∧
    ((common.ACCT_PRECISION_DICT tok).isNone ∨
        (common.PROOF_PRECISION_DICT tok).isNone →
      scaling.account_precision_to_proof_precision tok v = some v) := by
  refine ⟨?_, ?_, ?_, ?_⟩
  · intro hv
    unfold scaling.scale_units
    rw [if_neg (not_lt.mpr hv)]
    by_cases hle : in_dec ≤ out_dec
    · rw [if_pos hle, if_pos hle]
    · rw [if_neg hle, if_neg hle]
      have hpow : (0 : Int) < 10 ^ (in_dec - out_dec) := by positivity
      have hfd : v.fdiv (10 ^ (in_dec - out_dec)) = v / 10 ^ (in_dec - out_dec) :=
        Int.fdiv_eq_ediv v (le_of_lt hpow)
      have hdm := Int.ediv_add_emod v (10 ^ (in_dec - out_dec))
      have hiff : v / 10 ^ (in_dec - out_dec) * 10 ^ (in_dec - out_dec) = v ↔
          v % 10 ^ (in_dec - out_dec) = 0 := by
        rw [mul_comm]
        omega
      rw [hfd]
      by_cases hru : round_up = true
      · subst hru
        by_cases hrem : v % 10 ^ (in_dec - out_dec) = 0
        · rw [if_neg, if_neg]
          · simp [hrem]
          · simp only [decide_eq_true_eq, Bool.true_and]
            intro hne
            exact hne (hiff.mpr hrem)
        · rw [if_pos, if_pos]
          · exact ⟨rfl, hrem⟩
          · simp only [Bool.true_and, decide_eq_true_eq]
            intro heq
            exact hrem (hiff.mp heq)
      · have hru2 : round_up = false := by
          cases round_up
          · rfl
          · exact absurd rfl hru
        subst hru2
        simp
  · intro hv
    unfold scaling.scale_units
    rw [if_pos hv]
  · intro hd
    unfold scaling.snapshot_precision_to_proof_precision
    cases hs : common.SNAPSHOT_PRECISION_DICT tok with
    | none => rfl
    | some a =>
        cases hp : common.PROOF_PRECISION_DICT tok with
        | none => rfl
        | some b => rw [hs, hp] at hd; simp at hd
  · intro hd
    unfold scaling.account_precision_to_proof_precision
    cases hs : common.ACCT_PRECISION_DICT tok with
    | none => rfl
    | some a =>
        cases hp : common.PROOF_PRECISION_DICT tok with
        | none => rfl
        | some b => rw [hs, hp] at hd; simp at hd

/-- Claim C9 witness: the two docstring examples of `scaling.py`
(`12345` from 2 to 3 decimals, `123456` from 4 to 1 decimals with round
up), a negative value, and an unknown token. -/
theorem C9_scale_units_spec_witness :
    scaling.scale_units 12345 2 3 true = some 123450 ∧
    scaling.scale_units 123456 4 1 true = some 124 ∧
    scaling.scale_units (-7) 2 3 true = none ∧
    scaling.snapshot_precision_to_proof_precision "DOGE" 5 = some 5 ∧
    scaling.account_precision_to_proof_precision "DOGE" 5 = some 5 := by
  refine ⟨?_, ?_, ?_, ?_, ?_⟩
  · rw [(C9_scale_units_spec 12345 2 3 true "DOGE").1 (by norm_num)]
    decide
  · rw [(C9_scale_units_spec 123456 4 1 true "DOGE").1 (by norm_num)]
    decide
  · exact (C9_scale_units_spec (-7) 2 3 true "DOGE").2.1 (by norm_num)
  · exact (C9_scale_units_spec 5 0 0 true "DOGE").2.2.1 (Or.inl (by decide))
  · exact (C9_scale_units_spec 5 0 0 true "DOGE").2.2.2 (Or.inl (by decide))

/-- Claim C10: whenever the Base58 decode succeeds and at most 21 bytes
remain after removing the 4-byte checksum, `b58addrtoint` returns the
big-endian integer of the last at-most-20 of those bytes without any
assertion firing, and that integer is below `2 ^ 160` (hence below the
`2 ^ 200` bound asserted at the `make_address_integer_regs` call site);
with more than 21 remaining bytes the call fails the length assertion
instead of truncating. -/
theorem C10_b58addrtoint_bounds (s : String) (t : Nat)
    (h : btc_utils.btc_b58_to_int s = some t) :
    ((btc_utils.checksum_chopped t).length ≤ 21 →
      ∃ v, btc_utils.b58addrtoint s = some v ∧
        v = pybuiltins.from_bytes_big
            ((btc_utils.checksum_chopped t).drop
              ((btc_utils.checksum_chopped t).length - 20)) ∧
        v < 2 ^ 160) ∧
    (21 < (btc_utils.checksum_chopped t).length →
      btc_utils.b58addrtoint s = none) := by
  have hbound : ∀ bs : List Nat,
      (∀ b ∈ bs, b < 256) → bs.length ≤ 20 → pybuiltins.from_bytes_big bs < 2 ^ 160 := by
    intro bs hb hlen
    calc pybuiltins.from_bytes_big bs < 256 ^ bs.length := from_bytes_big_lt bs hb
      _ ≤ 256 ^ 20 := Nat.pow_le_pow_right (by norm_num) hlen
      _ = 2 ^ 160 := by norm_num
  have hmemc : ∀ b ∈ btc_utils.checksum_chopped t, b < 256 := by
    intro b hb
    exact hex_even_bytes_lt t b (List.mem_of_mem_take hb)
  have hres : (btc_utils.checksum_chopped t).length ≤ 21 →
      btc_utils.b58_result t =
        pybuiltins.from_bytes_big
          ((btc_utils.checksum_chopped t).drop
            ((btc_utils.checksum_chopped t).length - 20)) ∧
      btc_utils.b58_result t < 2 ^ 160 := by
    intro hle
    unfold btc_utils.b58_result
    by_cases h20 : (btc_utils.checksum_chopped t).length > 20
    · rw [if_pos h20]
      refine ⟨rfl, hbound _ ?_ ?_⟩
      · intro b hb
        exact hmemc b (List.mem_of_mem_drop hb)
      · rw [List.length_drop]
        omega
    · rw [if_neg h20]
      push_neg at h20
      constructor
      · rw [show (btc_utils.checksum_chopped t).length - 20 = 0 from by omega,
          List.drop_zero]
      · exact hbound _ hmemc h20
  constructor
  · intro hle
    obtain ⟨heq, hlt⟩ := hres hle
    unfold btc_utils.b58addrtoint
    rw [h]
    dsimp only
    rw [if_neg (by omega :
      ¬ ((btc_utils.checksum_chopped t).length > 20 ∧
        ¬ (btc_utils.checksum_chopped t).length = 21))]
    rw [if_pos hlt]
    exact ⟨btc_utils.b58_result t, rfl, heq, hlt⟩
  · intro hgt
    unfold btc_utils.b58addrtoint
    rw [h]
    dsimp only
    rw [if_pos (by omega :
      (btc_utils.checksum_chopped t).length > 20 ∧
        ¬ (btc_utils.checksum_chopped t).length = 21)]

/-- Claim C10 witness: the P2SH address of scenario E6 (21 remaining
bytes, truncated to 20) succeeds below `2 ^ 160`, and a 36-character
string of `z` (23 remaining bytes) fails the assertion. -/
theorem C10_b58addrtoint_bounds_witness :
    (∃ v, btc_utils.b58addrtoint "3P14159f73E4gFr7JterCCQh9QjiTjiZrG" = some v ∧
      v < 2 ^ 160) ∧
    btc_utils.b58addrtoint "zzzzzzzzzzzzzzzzzzzzzzzzzzzzzzzzzzzz" = none := by
  constructor
  · obtain ⟨v, hv, _, hb⟩ :=
      (C10_b58addrtoint_bounds "3P14159f73E4gFr7JterCCQh9QjiTjiZrG"
        37117412046184165215328310413872196888161402012543360794417 (by decide)).1
        (by decide)
    exact ⟨v, hv, hb⟩
  · exact
      (C10_b58addrtoint_bounds "zzzzzzzzzzzzzzzzzzzzzzzzzzzzzzzzzzzz"
        3043741517681573408154032751732621616256793128331902261559033855 (by decide)).2
        (by decide)

/-- Characterization of a successful `verify_receipt` run: every parse
and hash step succeeded, the first component is the account-id string
comparison, and the second is the conjunction of the three Merkle
checks. -/
theorem verify_receipt_some_eq (r : verify_receipt.Receipt) (a m : Bool)
    (h : verify_receipt.verify_receipt r = some (a, m)) :
    ∃ acct_id leaf preimage0 last_preimage top_hash bits,
      verify_receipt.calculate_account_id r.username r.nonce = some acct_id ∧
      verify_receipt.receipt_leaf r = some leaf ∧
      r.merkle_branch.get? 0 = some preimage0 ∧
      r.merkle_branch.getLast? = some last_preimage ∧
      poseidon_hash.poseidon_hash last_preimage r.merkle_arity = some top_hash ∧
      verify_receipt.merkle_membership_bits r = some bits ∧
      a = decide (pybuiltins.hex acct_id = r.account_id) ∧
      m = (decide (leaf = preimage0) && decide (top_hash = r.merkle_root) &&
        bits.all (fun b => b)) := by
  unfold verify_receipt.verify_receipt at h
  cases hacct : verify_receipt.calculate_account_id r.username r.nonce with
  | none => rw [hacct] at h; simp at h
  | some acct_id =>
      rw [hacct] at h
      dsimp only at h
      cases hlf : verify_receipt.receipt_leaf r with
      | none => rw [hlf] at h; simp at h
      | some leaf =>
          rw [hlf] at h
          dsimp only at h
          cases hp0 : r.merkle_branch.get? 0 with
          | none => rw [hp0] at h; simp at h
          | some preimage0 =>
              rw [hp0] at h
              dsimp only at h
              cases hlast : r.merkle_branch.getLast? with
              | none => rw [hlast] at h; simp at h
              | some last_preimage =>
                  rw [hlast] at h
                  dsimp only at h
                  cases hph : poseidon_hash.poseidon_hash last_preimage r.merkle_arity with
                  | none => rw [hph] at h; simp at h
                  | some top_hash =>
                      rw [hph] at h
                      dsimp only at h
                      cases hbits : verify_receipt.merkle_membership_bits r with
                      | none => rw [hbits] at h; simp at h
                      | some bits =>
                          rw [hbits] at h
                          dsimp only at h
                          have h2 := Option.some.inj h
                          have ha := congrArg Prod.fst h2
                          have hm := congrArg Prod.snd h2
                          dsimp only at ha hm
                          exact ⟨acct_id, leaf, preimage0, last_preimage, top_hash,
                            bits, rfl, rfl, rfl, rfl, hph, rfl, ha.symm, hm.symm⟩

/-- One step-2c membership bit equals `some true` exactly when the hash
of the lower preimage is a member of the upper one. -/
theorem merkle_membership_bit_iff (r : verify_receipt.Receipt) (i : Nat) :
    ((match poseidon_hash.poseidon_hash (r.merkle_branch.getD i [])
        (if i = 0 then r.merkle_leaf_hash_arity else r.merkle_arity) with
      | none => none
      | some curr_hash =>
          some (decide (curr_hash ∈ r.merkle_branch.getD (i + 1) []))) =
        some true) ↔
      ∃ hsh, poseidon_hash.poseidon_hash (r.merkle_branch.getD i [])
          (if i = 0 then r.merkle_leaf_hash_arity else r.merkle_arity) = some hsh ∧
        hsh ∈ r.merkle_branch.getD (i + 1) [] := by
  cases hph : poseidon_hash.poseidon_hash (r.merkle_branch.getD i [])
      (if i = 0 then r.merkle_leaf_hash_arity else r.merkle_arity) with
  | none => simp
  | some curr_hash => simp

/-- Claim C5: given that `verify_receipt` returns (no parse or arity
assertion fired), its `merkle_ok` component is `true` exactly when the
first Merkle preimage equals the packed leaf `[account_id] ++
pack6(balances_for_proof)`, the last preimage hashes at the Merkle arity
to the declared root, and every adjacent preimage pair passes the
membership check at the leaf arity (level 0) or Merkle arity. -/
theorem C5_verify_receipt_merkle_ok (r : verify_receipt.Receipt) (a m : Bool)
    (leaf : List Nat) (h : verify_receipt.verify_receipt r = some (a, m))
    (hleaf : verify_receipt.receipt_leaf r = some leaf) :
    m = true ↔
      (r.merkle_branch.get? 0 = some leaf ∧
        (∃ last_preimage, r.merkle_branch.getLast? = some last_preimage ∧
          poseidon_hash.poseidon_hash last_preimage r.merkle_arity =
            some r.merkle_root) ∧
        (∀ i, i + 1 < r.merkle_branch.length →
          ∃ hsh, poseidon_hash.poseidon_hash (r.merkle_branch.getD i [])
              (if i = 0 then r.merkle_leaf_hash_arity else r.merkle_arity) =
                some hsh ∧
            hsh ∈ r.merkle_branch.getD (i + 1) [])) := by
  obtain ⟨acct_id, leaf2, preimage0, last_preimage, top_hash, bits, hacct, hlf,
    hp0, hlast, hph, hbits, ha, hm⟩ := verify_receipt_some_eq r a m h
  have hleaf2 : leaf2 = leaf := by
    rw [hleaf] at hlf
    exact (Option.some.inj hlf).symm
  rw [hleaf2] at hm
  have hlen0 : 0 < r.merkle_branch.length := by
    cases hl : r.merkle_branch with
    | nil => rw [hl] at hp0; simp at hp0
    | cons x xs => simp [hl]
  have hall := optMapM_bool_all_iff hbits
  rw [hm]
  simp only [Bool.and_eq_true, decide_eq_true_eq]
  constructor
  · intro hcond
    obtain ⟨⟨h2a, h2b⟩, h2c⟩ := hcond
    refine ⟨by rw [hp0, h2a], ⟨last_preimage, hlast, by rw [hph, h2b]⟩, ?_⟩
    intro i hi
    have hmem := (hall.mp h2c) i (List.mem_range.mpr (by omega))
    exact (merkle_membership_bit_iff r i).mp hmem
  · intro hcond
    obtain ⟨h2a, ⟨lp, hlp, hlph⟩, h2c⟩ := hcond
    have hlp2 : lp = last_preimage := by
      rw [hlast] at hlp
      exact (Option.some.inj hlp).symm
    subst hlp2
    have htop : top_hash = r.merkle_root := by
      rw [hph] at hlph
      exact Option.some.inj hlph
    have hpre : leaf = preimage0 := by
      rw [hp0] at h2a
      exact (Option.some.inj h2a).symm
    refine ⟨⟨hpre, htop⟩, hall.mpr ?_⟩
    intro i hi
    have hi2 : i + 1 < r.merkle_branch.length := by
      have := List.mem_range.mp hi
      omega
    exact (merkle_membership_bit_iff r i).mpr (h2c i hi2)

set_option maxRecDepth 8000 in
set_option maxHeartbeats 1000000 in
/-- Claim C5 witness: a concrete single-level receipt whose leaf matches
its packed balances and whose preimage hashes to the declared root. -/
theorem C5_verify_receipt_merkle_ok_witness :
    true = true ↔
      (([[1, 100000000, 0, 0]] : List (List Nat)).get? 0 =
          some [1, 100000000, 0, 0] ∧
        (∃ last_preimage,
          ([[1, 100000000, 0, 0]] : List (List Nat)).getLast? = some last_preimage ∧
          poseidon_hash.poseidon_hash last_preimage 4 =
            some 6784823727910347864953438216056257615568720809838101068828642075346413719060) ∧
        (∀ i, i + 1 < ([[1, 100000000, 0, 0]] : List (List Nat)).length →
          ∃ hsh, poseidon_hash.poseidon_hash
              (([[1, 100000000, 0, 0]] : List (List Nat)).getD i [])
              (if i = 0 then 4 else 4) = some hsh ∧
            hsh ∈ ([[1, 100000000, 0, 0]] : List (List Nat)).getD (i + 1) [])) :=
  C5_verify_receipt_merkle_ok
    (verify_receipt.Receipt.mk "a" "b" "0x1" [("BTC", "1.00000000")]
      6784823727910347864953438216056257615568720809838101068828642075346413719060
      [[1, 100000000, 0, 0]] 4 4)
    false true [1, 100000000, 0, 0] (by decide) (by decide)

set_option maxRecDepth 8000 in
set_option maxHeartbeats 1000000 in
/-- Claim C6 counterexample: the account-id comparison is not
"canonical-hex equality after stripping 0x".  A receipt whose
`account_id` is exactly the canonical lowercase hex of the top 252
digest bits but lacks the `0x` prefix satisfies the claim's comparison,
yet `verify_receipt` reports `account_id_ok = false`, because the source
compares against Python's `hex()` output by literal string equality. -/
theorem C6_account_id_counterexample :
    ¬ (∀ (r : verify_receipt.Receipt) (a m : Bool),
        verify_receipt.verify_receipt r = some (a, m) →
        (a = true ↔
          ∃ e, verify_receipt.calculate_account_id r.username r.nonce = some e ∧
            common.strip_leading_0x r.account_id =
              String.mk (Nat.toDigits 16 e))) := by
  intro hclaim
  have h := hclaim
    (verify_receipt.Receipt.mk "u" "n"
      "e736042cf8eaf7bf5b36f34af1ed40626beb74d923edbc8fdf6557189eea661"
      [] 0 [[5]] 1 1)
    false false (by decide)
  have h2 := h.mpr
    ⟨6536231661479357340636505797745410729113567156490332379282602260125635749473,
      by decide, by decide⟩
  exact Bool.noConfusion h2

/-- Claim C6 (amended): given that `verify_receipt` returns, its
`account_id_ok` component is `true` exactly when the receipt's
`account_id` string is literally Python's `hex()` rendering — `0x`
followed by the minimal lowercase hexadecimal digits — of the top 252
bits `floor(SHA-512(username || nonce) / 2^260)` of the big-endian
512-bit digest; an account id that differs only by the missing `0x`
prefix (or by case or leading-zero padding) is rejected. -/
theorem C6_account_id_amended (r : verify_receipt.Receipt) (a m : Bool)
    (h : verify_receipt.verify_receipt r = some (a, m)) :
    a = true ↔
      ∃ e, verify_receipt.calculate_account_id r.username r.nonce = some e ∧
        r.account_id = pybuiltins.hex e := by
  obtain ⟨acct_id, leaf, preimage0, last_preimage, top_hash, bits, hacct, hlf,
    hp0, hlast, hph, hbits, ha, hm⟩ := verify_receipt_some_eq r a m h
  rw [ha]
  simp only [decide_eq_true_eq]
  constructor
  · intro heq
    exact ⟨acct_id, hacct, heq.symm⟩
  · intro hex
    obtain ⟨e, he, heq⟩ := hex
    rw [hacct] at he
    rw [heq, Option.some.inj he]

set_option maxRecDepth 8000 in
set_option maxHeartbeats 1000000 in
/-- Claim C6 witness for the amended statement: the same receipt with the
`0x`-prefixed canonical account id is accepted. -/
theorem C6_account_id_amended_witness :
    true = true ↔
      ∃ e, verify_receipt.calculate_account_id "u" "n" = some e ∧
        "0xe736042cf8eaf7bf5b36f34af1ed40626beb74d923edbc8fdf6557189eea661" =
          pybuiltins.hex e :=
  C6_account_id_amended
    (verify_receipt.Receipt.mk "u" "n"
      "0xe736042cf8eaf7bf5b36f34af1ed40626beb74d923edbc8fdf6557189eea661"
      [] 0 [[5]] 1 1)
    true false (by decide)

/-- `pairings_help` on the four pairing inputs of `verify`, computed: the
length assertion passes and the fold multiplies the four pairing values
left to right. -/
theorem pairings_help_four
    (pairingFn : bn254_helpers.G2Point → bn254_helpers.G1Point → bn254_helpers.Fp12)
    (a1 a2 a3 a4 : bn254_helpers.G1Point) (b1 b2 b3 b4 : bn254_helpers.G2Point) :
    bn254_helpers.pairings_help pairingFn [a1, a2, a3, a4] [b1, b2, b3, b4] =
      some (decide
        ([pairingFn b2 a2, pairingFn b3 a3, pairingFn b4 a4].foldl
          bn254_helpers.f12mul (pairingFn b1 a1) = bn254_helpers.f12one)) := rfl

/-- The source's limb decomposition agrees with the spec's: four
`mod 2 ^ 64` limbs, least significant first, defined exactly below
`2 ^ 256`. -/
theorem int_to_regs_eq_spec (x : Nat) :
    common.int_to_regs x = verify_public_proof.int_to_regs_spec x := by
  unfold common.int_to_regs verify_public_proof.int_to_regs_spec
  have hr : List.range 4 = [0, 1, 2, 3] := rfl
  rw [hr]
  simp only [List.foldl_cons, List.foldl_nil, List.nil_append, List.cons_append,
    List.append_nil]
  have hdiv : x / 2 ^ 64 / 2 ^ 64 / 2 ^ 64 / 2 ^ 64 = x / 2 ^ 256 := by
    rw [Nat.div_div_eq_div_mul, Nat.div_div_eq_div_mul, Nat.div_div_eq_div_mul]
    norm_num
  have hiff : x / 2 ^ 64 / 2 ^ 64 / 2 ^ 64 / 2 ^ 64 = 0 ↔ x < 2 ^ 256 := by
    rw [hdiv]
    exact Nat.div_eq_zero_iff (by positivity)
  split_ifs with h1 h2 h2
  · rfl
  · exact absurd (hiff.mp h1) h2
  · exact absurd (hiff.mpr h2) h1
  · rfl

/-- Claim C2: the source's `hash_pub_outputs` computes exactly the
`pubhash` formula of spec section 4.3 — the arity-2 combination of the
assets hash (arity-8 inner hash of the three per-name aggregate hashes
in order `eth`, `btc`, `btc_multi3`, a literal 0, the triple
`anonsetagg_vkey_hash`, and `dummy_vkey_hash`, combined with
`assetsrec_vkey_hash` at arity 2; each aggregate hash the arity-9 hash of
the four least-significant-first 64-bit limbs of `msg_hash` followed by
the five named fields) with the liabilities hash
`poseidon_hash([hashed_vkey_liab_base, hashed_vkey_liab_rec,
merkle_root], 3)`. -/
theorem C2_hash_pub_outputs_spec (P : verify_public_proof.PubOutputs) :
    verify_public_proof.hash_pub_outputs P = verify_public_proof.pubhash_spec P := by
  have habase : verify_public_proof.get_abase_revealed_aggregate_hash =
      verify_public_proof.hash_abase_spec := by
    funext A
    unfold verify_public_proof.get_abase_revealed_aggregate_hash
      verify_public_proof.hash_abase_spec
    rw [int_to_regs_eq_spec]
    cases h : verify_public_proof.int_to_regs_spec A.msg_hash with
    | none => rfl
    | some regs =>
        have hlen : regs.length = 4 := by
          unfold verify_public_proof.int_to_regs_spec at h
          split at h
          · cases h; rfl
          · cases h
        dsimp only
        rw [if_neg (by omega)]
  have hassets : verify_public_proof.hash_asset_pub_outputs P.assets =
      verify_public_proof.hash_assets_spec P.assets := by
    unfold verify_public_proof.hash_asset_pub_outputs
      verify_public_proof.hash_assets_spec
    rw [habase]
    simp only [optMapM]
    cases h1 : verify_public_proof.hash_abase_spec P.assets.eth <;>
      cases h2 : verify_public_proof.hash_abase_spec P.assets.btc <;>
      cases h3 : verify_public_proof.hash_abase_spec P.assets.btc_multi3 <;>
      simp [List.getD]
  unfold verify_public_proof.hash_pub_outputs verify_public_proof.pubhash_spec
  rw [hassets]
  cases hl : verify_public_proof.hash_liab_pub_outputs P.liabilities <;>
    cases ha : verify_public_proof.hash_assets_spec P.assets <;>
    simp

/-- Claim C3: `verify` asserts `input < r` (raising otherwise, which is
`none`), builds `vk_x = IC0 + input * IC1` in G1, and answers `true` if
and only if the product of the four pairings
`e(-A, B) * e(alpha1, beta2) * e(vk_x, gamma2) * e(C, delta2)` is the
Fp12 identity — stated for every pairing map, since the Miller loop
itself lives in the external curve library. -/
theorem C3_verify_pairing_product
    (pairingFn : bn254_helpers.G2Point → bn254_helpers.G1Point → bn254_helpers.Fp12)
    (input : Nat) (proof : verify_proof.Proof) (vk : verify_proof.VerifyingKey) :
    (∀ b, verify_proof.verify pairingFn input proof vk = some b →
      input < verify_proof.snark_scalar_field ∧
      ∃ temp2 vk_x negA,
        bn254_helpers.scalar_mult_g1 input vk.IC1 = some temp2 ∧
        bn254_helpers.add_g1 vk.IC0 temp2 = some vk_x ∧
        bn254_helpers.negate_g1 proof.A = some negA ∧
        (b = true ↔
          bn254_helpers.f12mul
              (bn254_helpers.f12mul
                (bn254_helpers.f12mul (pairingFn proof.B negA)
                  (pairingFn vk.beta2 vk.alpha1))
                (pairingFn vk.gamma2 vk_x))
              (pairingFn vk.delta2 proof.C) = bn254_helpers.f12one)) ∧
    (verify_proof.snark_scalar_field ≤ input →
      verify_proof.verify pairingFn input proof vk = none) := by
  constructor
  · intro b hb
    unfold verify_proof.verify at hb
    by_cases hin : input < verify_proof.snark_scalar_field
    · rw [if_pos hin] at hb
      refine ⟨hin, ?_⟩
      cases hsm : bn254_helpers.scalar_mult_g1 input vk.IC1 with
      | none => rw [hsm] at hb; simp at hb
      | some temp2 =>
          rw [hsm] at hb
          dsimp only at hb
          cases hadd : bn254_helpers.add_g1 vk.IC0 temp2 with
          | none => rw [hadd] at hb; simp at hb
          | some vk_x =>
              rw [hadd] at hb
              dsimp only at hb
              cases hneg : bn254_helpers.negate_g1 proof.A with
              | none => rw [hneg] at hb; simp at hb
              | some negA =>
                  rw [hneg] at hb
                  dsimp only at hb
                  refine ⟨temp2, vk_x, negA, rfl, hadd, rfl, ?_⟩
                  rw [pairings_help_four] at hb
                  have hb3 := Option.some.inj hb
                  rw [← hb3, decide_eq_true_eq]
                  simp only [List.foldl_cons, List.foldl_nil]
    · rw [if_neg hin] at hb
      cases hb
  · intro hge
    unfold verify_proof.verify
    rw [if_neg (not_lt.mpr hge)]

set_option maxRecDepth 8000 in
set_option maxHeartbeats 1000000 in
/-- Claim C3 witness: a concrete run with the trivial pairing map, the G1
point `(1, 2)`, the standard G2 generator coordinates and `input = 1`
returns `some true`, and an input at the scalar-field modulus raises. -/
theorem C3_verify_pairing_product_witness :
    verify_proof.verify (fun _ _ => bn254_helpers.f12one) 1
        (verify_proof.Proof.mk (bn254_helpers.G1Point.mk 1 2)
          (bn254_helpers.G2Point.mk
            (10857046999023057135944570762232829481370756359578518086990519993285655852781,
              11559732032986387107991004021392285783925812861821192530917403151452391805634)
            (8495653923123431417604973247489272438418190587263600148770280649306958101930,
              4082367875863433681332203403145435568316851327593401208105741076214120093531))
          (bn254_helpers.G1Point.mk 1 2))
        (verify_proof.VerifyingKey.mk (bn254_helpers.G1Point.mk 1 2)
          (bn254_helpers.G2Point.mk
            (10857046999023057135944570762232829481370756359578518086990519993285655852781,
              11559732032986387107991004021392285783925812861821192530917403151452391805634)
            (8495653923123431417604973247489272438418190587263600148770280649306958101930,
              4082367875863433681332203403145435568316851327593401208105741076214120093531))
          (bn254_helpers.G2Point.mk
            (10857046999023057135944570762232829481370756359578518086990519993285655852781,
              11559732032986387107991004021392285783925812861821192530917403151452391805634)
            (8495653923123431417604973247489272438418190587263600148770280649306958101930,
              4082367875863433681332203403145435568316851327593401208105741076214120093531))
          (bn254_helpers.G2Point.mk
            (10857046999023057135944570762232829481370756359578518086990519993285655852781,
              11559732032986387107991004021392285783925812861821192530917403151452391805634)
            (8495653923123431417604973247489272438418190587263600148770280649306958101930,
              4082367875863433681332203403145435568316851327593401208105741076214120093531))
          (bn254_helpers.G1Point.mk 1 2) (bn254_helpers.G1Point.mk 1 2)) =
      some true ∧
    verify_proof.verify (fun _ _ => bn254_helpers.f12one)
        verify_proof.snark_scalar_field
        (verify_proof.Proof.mk (bn254_helpers.G1Point.mk 1 2)
          (bn254_helpers.G2Point.mk (0, 0) (0, 0)) (bn254_helpers.G1Point.mk 1 2))
        (verify_proof.VerifyingKey.mk (bn254_helpers.G1Point.mk 1 2)
          (bn254_helpers.G2Point.mk (0, 0) (0, 0))
          (bn254_helpers.G2Point.mk (0, 0) (0, 0))
          (bn254_helpers.G2Point.mk (0, 0) (0, 0))
          (bn254_helpers.G1Point.mk 1 2) (bn254_helpers.G1Point.mk 1 2)) = none := by
  constructor
  · decide
  · exact
      (C3_verify_pairing_product (fun _ _ => bn254_helpers.f12one)
        verify_proof.snark_scalar_field
        (verify_proof.Proof.mk (bn254_helpers.G1Point.mk 1 2)
          (bn254_helpers.G2Point.mk (0, 0) (0, 0)) (bn254_helpers.G1Point.mk 1 2))
        (verify_proof.VerifyingKey.mk (bn254_helpers.G1Point.mk 1 2)
          (bn254_helpers.G2Point.mk (0, 0) (0, 0))
          (bn254_helpers.G2Point.mk (0, 0) (0, 0))
          (bn254_helpers.G2Point.mk (0, 0) (0, 0))
          (bn254_helpers.G1Point.mk 1 2) (bn254_helpers.G1Point.mk 1 2))).2
        (le_refl _)

/-- Claim C4 counterexample: a proof whose `pi_a` point `(0, 1)` fails
the G1 curve equation makes the section 4.6 pipeline raise during
decoding (the `G1Point` constructor assertion, `none` here) — it does
not return the normal rejection value `false`. -/
theorem C4_not_on_curve_counterexample :
    verify_proof.verify_raw (fun _ _ => bn254_helpers.f12one) 1
      (verify_proof.RawProof.mk [0, 1] [[0, 0], [0, 0]] [1, 2])
      (verify_proof.RawVk.mk [1, 2] [[0, 0], [0, 0]] [[0, 0], [0, 0]]
        [[0, 0], [0, 0]] [[1, 2], [1, 2]]) = none := by
  decide

/-- Claim C4 (amended): a decoded G1 point that fails its curve equation
is a fatal decode error (the constructor assertion raises; `none`), not a
`false` verification result, and an out-of-range coordinate is not
rejected at all — the decoder reduces both coordinates modulo `P`, so a
raw point is decoded exactly as its reduction is. -/
theorem C4_decode_amended (x y : Int) :
    (bn254_helpers.on_curve_g1 ((x % (bn254_helpers.P : Int)).toNat)
        ((y % (bn254_helpers.P : Int)).toNat) = false →
      verify_proof.raw_to_G1 [x, y] = none) ∧
    verify_proof.raw_to_G1 [x, y] =
      verify_proof.raw_to_G1
        [x % (bn254_helpers.P : Int), y % (bn254_helpers.P : Int)] := by
  constructor
  · intro hcurve
    unfold verify_proof.raw_to_G1 bn254_helpers.G1Point.ofPoint
      bn254_helpers.G1Point.ofReduced
    rw [if_pos (by simp)]
    dsimp only [List.getD, List.get?, Option.getD]
    rw [hcurve]
    simp
  · unfold verify_proof.raw_to_G1 bn254_helpers.G1Point.ofPoint
      bn254_helpers.G1Point.ofReduced
    dsimp only [List.getD, List.get?, Option.getD]
    rw [Int.emod_emod_of_dvd x (dvd_refl (bn254_helpers.P : Int)),
      Int.emod_emod_of_dvd y (dvd_refl (bn254_helpers.P : Int))]
    rfl

/-- Claim C4 witness for the amended statement: `(0, 1)` is rejected at
decode time, and the out-of-range raw point `(P + 1, P + 2)` decodes to
the same result as `(1, 2)`. -/
theorem C4_decode_amended_witness :
    verify_proof.raw_to_G1 [0, 1] = none ∧
    verify_proof.raw_to_G1 [(bn254_helpers.P : Int) + 1, (bn254_helpers.P : Int) + 2] =
      verify_proof.raw_to_G1 [1, 2] := by
  constructor
  · exact (C4_decode_amended 0 1).1 (by decide)
  · have h := (C4_decode_amended ((bn254_helpers.P : Int) + 1)
      ((bn254_helpers.P : Int) + 2)).2
    rw [h]
    have e1 : ((bn254_helpers.P : Int) + 1) % (bn254_helpers.P : Int) = 1 := by decide
    have e2 : ((bn254_helpers.P : Int) + 2) % (bn254_helpers.P : Int) = 2 := by decide
    rw [e1, e2]

/-- Claim C7 counterexample: the padding law fails for `k = 1`.
Appending one zero to the singleton input `[1]` leaves
`linear_hash_many` (arity 16) unchanged, because both inputs zero-pad to
the same 16-element block. -/
theorem C7_linear_hash_padding_counterexample :
    linear_hash_many ([1] ++ List.replicate 1 0) 16 = linear_hash_many [1] 16 := by
  rfl

/-- Claim C7 (amended): appending `k` zeros to `xs` preserves the
arity-16 `linear_hash_many` digest whenever the extended input still fits
in the first rate block (`xs.length + k <= 16`); the zero-suffix padding
convention carries no length information, so equality of digests does not
force `k = 0`. -/
theorem C7_linear_hash_padding_amended (xs : List Nat) (k : Nat)
    (h : xs.length + k ≤ 16) :
    linear_hash_many (xs ++ List.replicate k 0) 16 = linear_hash_many xs 16 := by
  have hlen : (xs ++ List.replicate k 0).length = xs.length + k := by
    simp [List.length_append, List.length_replicate]
  have hfit : (xs ++ List.replicate k 0).length ≤ 16 := by omega
  have hfit2 : xs.length ≤ 16 := by omega
  have hpad : (xs ++ List.replicate k 0) ++
      List.replicate (16 - (xs ++ List.replicate k 0).length) 0 =
      xs ++ List.replicate (16 - xs.length) 0 := by
    rw [hlen, List.append_assoc, ← List.replicate_add]
    congr 2
    omega
  unfold linear_hash_many
  rw [if_pos hfit, if_pos hfit2, hpad]

/-- Claim C7 witness: a concrete instance of the amended padding law with
`xs = [2, 3]` and `k = 2`. -/
theorem C7_linear_hash_padding_amended_witness :
    ([2, 3] : List Nat).length + 2 ≤ 16 ∧
      linear_hash_many ([2, 3] ++ List.replicate 2 0) 16 = linear_hash_many [2, 3] 16 :=
  And.intro (by decide) (C7_linear_hash_padding_amended [2, 3] 2 (by decide))

end claim_theorems
